import Mathlib

/-!
Verification of the parse_xml_anbima fund-of-funds pipeline core.

Shallow embedding of the pipeline components in Lean 4:
pandas DataFrames are embedded as lists of row structures, float columns as
rationals (ℚ) with NaN embedded as Option.none where a column is nullable,
and Python exceptions as explicit result types.  Each definition is
translated from the corresponding function of the repository source
(file and line references are given in the doc comments).

Conventions used throughout:
* a pandas left merge is a flatMap that keeps an unmatched left row
  unchanged and fans a matched left row out over all matching right rows;
* groupby(...).transform(sum) is a per-row sum over the rows sharing the
  group key (pandas drops NaN group keys, which is modelled where it
  matters);
* fillna on a column is Option.getD;
* Series.isin never matches a missing (NaN) value, since the membership
  lists are built with dropna.
Rational division by zero is total in Lean (q / 0 = 0); the only places
where a denominator can be zero are flagged in the relevant theorems and
never hidden behind that convention.
-/

/- ===================== Definitions ===================== -/

namespace Acyclic

/-- A row of the fund table as read by the acyclicity validator:
only the two columns it touches, src/pipeline_orchestration.py:523
(funds[['cnpjfundo', 'cnpj']]).  Both are nullable. -/
structure FundRow where
  cnpjfundo : Option String
  cnpj : Option String
deriving DecidableEq, Repr

/-- Edge extraction of validate_fund_graph_is_acyclic
(src/pipeline_orchestration.py:522-528): select the two columns, dropna
(a row with either column missing is dropped), drop_duplicates. -/
def fund_edges (funds : List FundRow) : List (String × String) :=
  (funds.filterMap (fun r =>
    match r.cnpjfundo, r.cnpj with
    | some a, some b => some (a, b)
    | _, _ => none)).dedup

/-- One breadth step of reachability over the directed edge list. -/
def reach_step (edges : List (String × String)) (frontier : List String) :
    List String :=
  frontier ++ edges.filterMap (fun e =>
    if e.1 ∈ frontier then some e.2 else none)

/-- Nodes reachable within n steps. -/
def reach_n (edges : List (String × String)) : ℕ → List String → List String
  | 0, f => f
  | n + 1, f => reach_n edges n (reach_step edges f)

/-- Whether b is reachable from a along the directed edges (paths of
length up to the number of edges suffice). -/
def reachable (edges : List (String × String)) (a b : String) : Bool :=
  (reach_n edges (edges.length + 1) [a]).contains b

/-- The edge list contains a directed cycle: some edge (u, v) closes a
path from v back to u. -/
def has_cycle (edges : List (String × String)) : Bool :=
  edges.any (fun e => reachable edges e.2 e.1)

/-- Embeds validate_fund_graph_is_acyclic
(src/pipeline_orchestration.py:508-535) as executed.  The function builds
the edge list and a DiGraph, then evaluates
nx.algorithms.dag.topological_sort(graph) inside try/except.  In
networkx 2.x/3.x topological_sort is a generator function, so the call
only creates a generator object and never iterates it; NetworkXUnfeasible
is therefore never raised, the except branch is dead code, and the
function returns normally on every input (the repository consumes the
same generator correctly elsewhere, with
list(nx.topological_sort(graph)), src/compute_equiyt_stake.py:240). -/
def validate_fund_graph_is_acyclic (funds : List FundRow) : Except String Unit :=
  let _edges := fund_edges funds
  Except.ok ()

/-- Modelled from the docstring of validate_fund_graph_is_acyclic
("Raises ValueError: If a cycle is detected in the graph of fund
relationships"), i.e. the behaviour the code would have if the
topological sort were actually consumed: raise on a cyclic edge set,
return normally otherwise. -/
def validate_fund_graph_is_acyclic_docstring (funds : List FundRow) :
    Except String Unit :=
  if has_cycle (fund_edges funds) then
    Except.error "Cycle detected in fund relationships"
  else
    Except.ok ()

/-- A concrete cyclic fund table: fund A holds shares of fund B and fund
B holds shares of fund A, on the same date. -/
def cyclic_funds : List FundRow :=
  [{ cnpjfundo := some "B", cnpj := some "A" },
   { cnpjfundo := some "A", cnpj := some "B" }]

end Acyclic

namespace ArityCheck

/-- Number of parameters of compute_plan_returns_adjustment as defined in
src/returns/plano_mec_sac.py:13 (tree_hrztl, mec_sac, dcadplanosac). -/
def compute_plan_returns_adjustment_param_count : ℕ := 3

/-- Number of positional arguments the orchestrator passes to
compute_plan_returns_adjustment in compute_plan_returns_adjust,
src/pipeline_orchestration.py:679 (tree_hrztl, mec_sac, dcadplanosac,
port_submassa). -/
def compute_plan_returns_adjustment_arg_count : ℕ := 4

/-- Result of a Python call: either the value of the body, or the
TypeError CPython raises at call time when the number of positional
arguments does not match the parameter list of a plain function. -/
inductive PyCallResult (α : Type) where
  | ok : α → PyCallResult α
  | typeError : PyCallResult α
deriving DecidableEq, Repr

/-- CPython call semantics for a plain function without defaults or
varargs: the body runs only when the argument count matches the
parameter count; otherwise a TypeError is raised before the body. -/
def python_call (params args : ℕ) (body : Unit → α) : PyCallResult α :=
  if args = params then PyCallResult.ok (body ()) else PyCallResult.typeError

/-- The reconciliation-stage call as issued by compute_plan_returns_adjust
(src/pipeline_orchestration.py:673-680): the four-argument invocation of
the three-parameter compute_plan_returns_adjustment, with the body of the
callee abstracted as `body`. -/
def plan_returns_reconciliation_call (body : Unit → α) : PyCallResult α :=
  python_call compute_plan_returns_adjustment_param_count
    compute_plan_returns_adjustment_arg_count body

end ArityCheck

namespace EnrichValues

/-- A row of the horizontal tree as read by enrich_values
(src/investment_tree/enrichment_values.py).  The level-suffixed columns
col, col_nivel_1, col_nivel_2, ... are embedded as the base field plus a
list (index k holding col_nivel_(k+1)); a level column absent for a row
holds NaN, i.e. none.  Output columns start at their pre-enrichment
values (valor_calc_proporcional and the return columns do not exist
before enrichment; contribution of equity_stake_leaf and total_invest is
overwritten unconditionally, so their initial values are irrelevant). -/
structure VRow where
  cnpb : String
  clcli_cd : String
  dtposicao : String
  nivel : ℕ
  equity_stake : Option ℚ
  equity_stake_levels : List (Option ℚ)
  valor_calc : Option ℚ
  valor_calc_levels : List (Option ℚ)
  rentab : Option ℚ
  rentab_levels : List (Option ℚ)
  pct_submassa_isin_cnpb : Option ℚ
  equity_stake_leaf : ℚ := 1
  valor_calc_proporcional : Option ℚ := none
  total_invest : ℚ := 0
  composicao : Option ℚ := none
  rentab_ponderada : Option ℚ := none
  rentab_nominal : Option ℚ := none
deriving DecidableEq, Repr, Inhabited

/-- The equity_stake column of level i (equity_stake for i = 0,
equity_stake_nivel_i otherwise). -/
def stake_col (r : VRow) (i : ℕ) : Option ℚ :=
  if i = 0 then r.equity_stake else r.equity_stake_levels.getD (i - 1) none

/-- The valor_calc column of level i. -/
def valor_col (r : VRow) (i : ℕ) : Option ℚ :=
  if i = 0 then r.valor_calc else r.valor_calc_levels.getD (i - 1) none

/-- The rentab column of level i. -/
def rentab_col (r : VRow) (i : ℕ) : Option ℚ :=
  if i = 0 then r.rentab else r.rentab_levels.getD (i - 1) none

/-- Embeds accumulate_columns_by_level
(src/investment_tree/enrichment_values.py:10-29) at its single call site
(base_col equity_stake, result_col equity_stake_leaf,
enrichment_values.py:117): the result column is the row-wise product of
the columns equity_stake_nivel_1 .. equity_stake_nivel_deep and
equity_stake, with missing values filled with the neutral 1. -/
def accumulate_columns_by_level (tree : List VRow) (deep : ℕ) : List VRow :=
  tree.map (fun r =>
    { r with equity_stake_leaf :=
        ((List.range deep).map (fun k =>
          (r.equity_stake_levels.getD k none).getD 1)).prod
        * r.equity_stake.getD 1 })

/-- Embeds compute_proportional_value
(src/investment_tree/enrichment_values.py:32-62): for each level i from
0 to max_depth, the rows of that nivel get
valor_calc_proporcional = valor_calc(level i) * equity_stake_leaf *
pct_submassa_isin_cnpb.fillna(1); a NaN valor_calc propagates. -/
def compute_proportional_value (tree : List VRow) (max_depth : ℕ) : List VRow :=
  (List.range (max_depth + 1)).foldl (fun t i =>
    t.map (fun r =>
      if r.nivel = i then
        { r with valor_calc_proporcional :=
            (valor_col r i).map (fun v =>
              v * r.equity_stake_leaf * r.pct_submassa_isin_cnpb.getD 1) }
      else r)) tree

/-- The groupby key of the total_invest aggregation
(['cnpb', 'CLCLI_CD', 'dtposicao'], enrichment_values.py:123). -/
def group_key (r : VRow) : String × String × String :=
  (r.cnpb, r.clcli_cd, r.dtposicao)

/-- Group-wise sum of valor_calc_proporcional over a table (pandas
transform('sum') skips NaN, so a missing value contributes 0). -/
def total_invest_of (tree : List VRow) (k : String × String × String) : ℚ :=
  ((tree.filter (fun s => group_key s = k)).map
    (fun s => s.valor_calc_proporcional.getD 0)).sum

/-- Embeds the total_invest assignment of enrich_values
(enrichment_values.py:122-124): groupby transform('sum') of
valor_calc_proporcional over (cnpb, CLCLI_CD, dtposicao). -/
def assign_total_invest (tree : List VRow) : List VRow :=
  tree.map (fun r => { r with total_invest := total_invest_of tree (group_key r) })

/-- Embeds the composicao assignment of enrich_values
(enrichment_values.py:126-129): composicao = valor_calc_proporcional /
total_invest, with a NaN numerator propagating. -/
def assign_composicao (tree : List VRow) : List VRow :=
  tree.map (fun r =>
    { r with composicao := r.valor_calc_proporcional.map (fun v => v / r.total_invest) })

/-- Embeds compute_weighted_returns
(src/investment_tree/enrichment_values.py:65-92): for each level i from
max_depth down to 0, rows of that nivel get
rentab_ponderada = composicao * rentab(level i).fillna(0) *
pct_submassa_isin_cnpb.fillna(1) (NaN composicao propagates) and
rentab_nominal = rentab(level i). -/
def compute_weighted_returns (tree : List VRow) (max_depth : ℕ) : List VRow :=
  ((List.range (max_depth + 1)).reverse).foldl (fun t i =>
    t.map (fun r =>
      if r.nivel = i then
        { r with
          rentab_ponderada := r.composicao.map (fun c =>
            c * (rentab_col r i).getD 0 * r.pct_submassa_isin_cnpb.getD 1),
          rentab_nominal := rentab_col r i }
      else r)) tree

/-- The maximum of the nivel column (tree['nivel'].max()). -/
def max_nivel (tree : List VRow) : ℕ :=
  (tree.map (fun r => r.nivel)).foldl max 0

/-- Embeds enrich_values (src/investment_tree/enrichment_values.py:95-131):
accumulate stakes, compute proportional values, total invested per
group, composition, and weighted returns, in source order. -/
def enrich_values (tree : List VRow) : List VRow :=
  let max_depth := max_nivel tree
  let t1 := accumulate_columns_by_level tree max_depth
  let t2 := compute_proportional_value t1 max_depth
  let t3 := assign_total_invest t2
  let t4 := assign_composicao t3
  compute_weighted_returns t4 max_depth

/-- Concrete tree for the stake example of C5: one chain row at nivel 1
with equity_stake 0.5 at level 0 and equity_stake_nivel_1 0.4. -/
def c5_tree : List VRow :=
  [{ cnpb := "P", clcli_cd := "S", dtposicao := "20240131", nivel := 1,
     equity_stake := some (1/2), equity_stake_levels := [some (2/5)],
     valor_calc := some 1000, valor_calc_levels := [some 1000],
     rentab := none, rentab_levels := [none],
     pct_submassa_isin_cnpb := none }]

/-- Concrete tree for the composition example of C6: two rows of one
(plan, sub-group, date) group with proportional inputs 600 and 400. -/
def c6_tree : List VRow :=
  [{ cnpb := "P", clcli_cd := "S", dtposicao := "20240131", nivel := 0,
     equity_stake := none, equity_stake_levels := [],
     valor_calc := some 600, valor_calc_levels := [],
     rentab := none, rentab_levels := [],
     pct_submassa_isin_cnpb := none },
   { cnpb := "P", clcli_cd := "S", dtposicao := "20240131", nivel := 0,
     equity_stake := none, equity_stake_levels := [],
     valor_calc := some 400, valor_calc_levels := [],
     rentab := none, rentab_levels := [],
     pct_submassa_isin_cnpb := none }]

end EnrichValues

namespace PlanoMecSac

/-- A row of the official MEC/SAC return series as read by
compute_plan_returns_adjustment (src/returns/plano_mec_sac.py): account
code, date (already in the canonical YYYYMMDD form the function
normalizes to) and daily return. -/
structure MecSacRow where
  CODCLI : String
  DT : String
  RENTAB_DIA : ℚ
deriving DecidableEq, Repr

/-- A row of the plan-allocation table dcadplanosac: account code, plan
id and reported net asset value. -/
structure PlanoSacRow where
  CODCLI_SAC : String
  CNPB : String
  VL_PATRLIQTOT1 : ℚ
deriving DecidableEq, Repr

/-- The columns of the horizontal tree the adjustment reads: plan, date
and the weighted return contribution. -/
structure TreeReturnRow where
  cnpb : String
  dtposicao : String
  contribution_rentab_ponderada : Option ℚ
deriving DecidableEq, Repr

/-- A (plan, date, value) aggregate row. -/
structure PlanReturn where
  CNPB : String
  DT : String
  value : ℚ
deriving DecidableEq, Repr, Inhabited

/-- A row of plan_returns_adjust: the merge of the tree aggregate with
the MEC/SAC aggregate plus the delta and factor columns
(plano_mec_sac.py:83-97).  The MEC/SAC side is none when the left merge
found no authoritative row for the (plan, date). -/
structure AdjustRow where
  cnpb : String
  dtposicao : String
  contribution_rentab_ponderada : ℚ
  RENTAB_DIA_PONDERADA_MEC_SAC : Option ℚ
  contribution_ajuste_rentab : Option ℚ
  contribution_ajuste_rentab_fator : Option ℚ
deriving DecidableEq, Repr, Inhabited

/-- Embeds the left merge of mec_sac with dcadplanosac on
CODCLI = CODCLI_SAC after both sides are stripped
(plano_mec_sac.py:46-56): an account with no plan row keeps NaN plan
columns, an account with several fans out. -/
def mec_sac_dcadplanosac (mec_sac : List MecSacRow) (dcad : List PlanoSacRow) :
    List (MecSacRow × Option PlanoSacRow) :=
  mec_sac.flatMap (fun m =>
    let ms := dcad.filter (fun p => p.CODCLI_SAC.trim = m.CODCLI.trim)
    if ms.isEmpty then [(m, none)] else ms.map (fun p => (m, some p)))

/-- Whether a joined row belongs to the (CNPB, DT) group k; rows whose
plan side is NaN have a NaN group key and belong to no group (pandas
groupby drops them). -/
def in_plan_group (k : String × String) (x : MecSacRow × Option PlanoSacRow) :
    Bool :=
  match x.2 with
  | some p => decide (p.CNPB = k.1 ∧ x.1.DT = k.2)
  | none => false

/-- TOTAL_PL_MEC_SAC: groupby (CNPB, DT) transform sum of VL_PATRLIQTOT1
(plano_mec_sac.py:58-61). -/
def total_pl (joined : List (MecSacRow × Option PlanoSacRow))
    (k : String × String) : ℚ :=
  ((joined.filter (in_plan_group k)).map
    (fun x => (x.2.map (fun p => p.VL_PATRLIQTOT1)).getD 0)).sum

/-- The distinct (CNPB, DT) group keys of the joined table. -/
def plan_group_keys (joined : List (MecSacRow × Option PlanoSacRow)) :
    List (String × String) :=
  (joined.filterMap (fun x => x.2.map (fun p => (p.CNPB, x.1.DT)))).dedup

/-- mec_sac_returns_by_plan (plano_mec_sac.py:63-74): per (CNPB, DT), the
sum of RENTAB_DIA_PONDERADA_MEC_SAC = VL_PATRLIQTOT1 / TOTAL_PL_MEC_SAC *
RENTAB_DIA over the group. -/
def mec_sac_returns_by_plan (mec_sac : List MecSacRow)
    (dcad : List PlanoSacRow) : List PlanReturn :=
  let joined := mec_sac_dcadplanosac mec_sac dcad
  (plan_group_keys joined).map (fun k =>
    { CNPB := k.1, DT := k.2,
      value := ((joined.filter (in_plan_group k)).map
        (fun x => match x.2 with
          | some p => p.VL_PATRLIQTOT1 / total_pl joined k * x.1.RENTAB_DIA
          | none => 0)).sum })

/-- tree_returns_by_plan (plano_mec_sac.py:76-80): groupby (cnpb,
dtposicao) sum of contribution_rentab_ponderada (NaN contributions are
skipped by the pandas sum). -/
def tree_returns_by_plan (tree : List TreeReturnRow) : List PlanReturn :=
  ((tree.map (fun r => (r.cnpb, r.dtposicao))).dedup).map (fun k =>
    { CNPB := k.1, DT := k.2,
      value := ((tree.filter (fun r => decide (r.cnpb = k.1 ∧ r.dtposicao = k.2))).map
        (fun r => r.contribution_rentab_ponderada.getD 0)).sum })

/-- Embeds compute_plan_returns_adjustment
(src/returns/plano_mec_sac.py:13-97): aggregate both series by plan and
date, left-merge the tree aggregate with the MEC/SAC aggregate (whose
(CNPB, DT) keys are unique after the groupby, so the first match is the
only one), and add contribution_ajuste_rentab = authoritative - tree and
contribution_ajuste_rentab_fator = authoritative / tree. -/
def compute_plan_returns_adjustment (tree_hrztl : List TreeReturnRow)
    (mec_sac : List MecSacRow) (dcadplanosac : List PlanoSacRow) :
    List PlanReturn × List PlanReturn × List AdjustRow :=
  let mec_by_plan := mec_sac_returns_by_plan mec_sac dcadplanosac
  let tree_by_plan := tree_returns_by_plan tree_hrztl
  let adjust := tree_by_plan.map (fun t =>
    let m := mec_by_plan.find? (fun x => decide (x.CNPB = t.CNPB ∧ x.DT = t.DT))
    { cnpb := t.CNPB, dtposicao := t.DT,
      contribution_rentab_ponderada := t.value,
      RENTAB_DIA_PONDERADA_MEC_SAC := m.map (fun x => x.value),
      contribution_ajuste_rentab := m.map (fun x => x.value - t.value),
      contribution_ajuste_rentab_fator := m.map (fun x => x.value / t.value) })
  (mec_by_plan, tree_by_plan, adjust)

/-- Concrete inputs for the round-trip example of C7: one tree group with
weighted return 0.0120 and an authoritative return of 0.0125. -/
def c7_tree : List TreeReturnRow :=
  [{ cnpb := "P1", dtposicao := "20240131",
     contribution_rentab_ponderada := some (3/250) }]

/-- Authoritative series for the C7 example (0.0125 for account C1). -/
def c7_mec : List MecSacRow :=
  [{ CODCLI := "C1", DT := "20240131", RENTAB_DIA := 1/80 }]

/-- Plan allocation for the C7 example: account C1 belongs to plan P1. -/
def c7_dcad : List PlanoSacRow :=
  [{ CODCLI_SAC := "C1", CNPB := "P1", VL_PATRLIQTOT1 := 100 }]

/-- Concrete tree for the C7 counterexample: the same plan and date but a
tree-aggregated weighted return of exactly zero. -/
def c7_zero_tree : List TreeReturnRow :=
  [{ cnpb := "P1", dtposicao := "20240131",
     contribution_rentab_ponderada := some 0 }]

end PlanoMecSac

namespace Submassa

/-- A row of the port_submassa mapping before proration factors are
computed: a flagged portfolio position merged with its sub-group
registration (extract_portfolio_submassa,
src/pipeline_orchestration.py:479-492), restricted to the columns
compute_composition_portfolio_submassa and the Splitter read. -/
structure PortSubmassaSrcRow where
  dtposicao : String
  CNPB : String
  isin : Option String
  CODCART : Option String
  COD_SUBMASSA : Option String
  SUBMASSA : Option String
  valor_calc : ℚ
  pct_submassa_isin_cnpb : Option ℚ := none
deriving DecidableEq, Repr

/-- total_submassa_isin_cnpb: groupby (dtposicao, CNPB, isin) transform
sum of valor_calc (src/pipeline_orchestration.py:497-499). -/
def total_submassa (port : List PortSubmassaSrcRow)
    (dt cnpb isin : String) : ℚ :=
  ((port.filter (fun s =>
    decide (s.dtposicao = dt ∧ s.CNPB = cnpb ∧ s.isin = some isin))).map
    (fun s => s.valor_calc)).sum

/-- Embeds compute_composition_portfolio_submassa
(src/pipeline_orchestration.py:495-505):
pct_submassa_isin_cnpb = valor_calc / total_submassa_isin_cnpb; a row
with NaN isin has a NaN group key, hence NaN total and NaN factor. -/
def compute_composition_portfolio_submassa
    (port : List PortSubmassaSrcRow) : List PortSubmassaSrcRow :=
  port.map (fun r =>
    { r with pct_submassa_isin_cnpb :=
        match r.isin with
        | some i => some (r.valor_calc / total_submassa port r.dtposicao r.CNPB i)
        | none => none })

/-- The mapping columns the Splitter merges in (cols_port_submassa,
src/pipeline_orchestration.py:574-575). -/
structure PortSubmassaRow where
  dtposicao : String
  CNPB : String
  isin : Option String
  CODCART : Option String
  COD_SUBMASSA : Option String
  SUBMASSA : Option String
  pct_submassa_isin_cnpb : Option ℚ
deriving DecidableEq, Repr

/-- Column selection port_submassa[cols_port_submassa]. -/
def select_cols (r : PortSubmassaSrcRow) : PortSubmassaRow :=
  { dtposicao := r.dtposicao, CNPB := r.CNPB, isin := r.isin,
    CODCART := r.CODCART, COD_SUBMASSA := r.COD_SUBMASSA,
    SUBMASSA := r.SUBMASSA,
    pct_submassa_isin_cnpb := r.pct_submassa_isin_cnpb }

/-- A row of the sub-portfolio slice of the horizontal tree as the
Splitter reads it: join keys (date, plan), the level-indexed resolved
instrument ids isin, isin_nivel_1, ... (base field plus list), nivel and
the base value; plus the four columns explode_horizontal_tree_submassa
maintains. -/
structure SubTreeRow where
  dtposicao : String
  cnpb : String
  nivel : ℕ
  isin : Option String
  isin_levels : List (Option String)
  valor_calc : ℚ
  COD_SUBMASSA : Option String := none
  SUBMASSA : Option String := none
  pct_submassa_isin_cnpb : Option ℚ := some 1
  CODCART : Option String := none
deriving DecidableEq, Repr, Inhabited

/-- The isin column of level i (isin for i = 0, isin_nivel_i
otherwise). -/
def isin_col (r : SubTreeRow) (i : ℕ) : Option String :=
  if i = 0 then r.isin else r.isin_levels.getD (i - 1) none

/-- The initialization block of explode_horizontal_tree_submassa
(src/pipeline_orchestration.py:578-581): COD_SUBMASSA, SUBMASSA and
CODCART start as None and the proration factor as 1.0. -/
def init_row (r : SubTreeRow) : SubTreeRow :=
  { r with COD_SUBMASSA := none, SUBMASSA := none,
           pct_submassa_isin_cnpb := some 1, CODCART := none }

/-- The mapping rows matching a tree row at level i: the level-i merge
keys (dtposicao, cnpb, isin_col i) against (dtposicao, CNPB, isin), with
mask_port dropping mapping rows whose isin is NaN; a NaN key never
matches. -/
def submassa_matches (port : List PortSubmassaRow) (r : SubTreeRow)
    (i : ℕ) : List PortSubmassaRow :=
  port.filter (fun p =>
    p.isin.isSome && decide (p.dtposicao = r.dtposicao ∧ p.CNPB = r.cnpb
      ∧ p.isin = isin_col r i))

/-- The level-i overwrite for a matched row
(src/pipeline_orchestration.py:602-605): the merged mapping values
replace the four maintained columns. -/
def assign_submassa (r : SubTreeRow) (p : PortSubmassaRow) : SubTreeRow :=
  { r with COD_SUBMASSA := p.COD_SUBMASSA, SUBMASSA := p.SUBMASSA,
           pct_submassa_isin_cnpb := p.pct_submassa_isin_cnpb,
           CODCART := p.CODCART }

/-- One tree row through the level-i left merge: unmatched rows pass
through, matched rows fan out over the matching mapping rows and take
their values. -/
def explode_row (port : List PortSubmassaRow) (i : ℕ) (r : SubTreeRow) :
    List SubTreeRow :=
  let ms := submassa_matches port r i
  if ms.isEmpty then [r] else ms.map (assign_submassa r)

/-- The level-i pass over the whole table (the merge plus the mask_merge
assignments of the loop body, src/pipeline_orchestration.py:591-608). -/
def explode_level (port : List PortSubmassaRow) (i : ℕ)
    (t : List SubTreeRow) : List SubTreeRow :=
  t.flatMap (explode_row port i)

/-- The maximum of the nivel column. -/
def sub_max_nivel (t : List SubTreeRow) : ℕ :=
  (t.map (fun r => r.nivel)).foldl max 0

/-- The post-loop fillna on the proration factor
(src/pipeline_orchestration.py:610). -/
def fill_pct (t : List SubTreeRow) : List SubTreeRow :=
  t.map (fun r =>
    { r with pct_submassa_isin_cnpb := some (r.pct_submassa_isin_cnpb.getD 1) })

/-- The default-bucket assignment (src/pipeline_orchestration.py:611-613):
rows whose SUBMASSA is still NaN get sub-group id '1' and name 'BSPS'. -/
def fill_bsps (t : List SubTreeRow) : List SubTreeRow :=
  t.map (fun r =>
    if r.SUBMASSA.isNone then
      { r with COD_SUBMASSA := some "1", SUBMASSA := some "BSPS" }
    else r)

/-- Embeds explode_horizontal_tree_submassa
(src/pipeline_orchestration.py:572-617): initialize the four columns,
return early when the table is empty (max_depth is NaN), otherwise run
the level loop for i = 0 .. max_depth and apply the fillna and
default-bucket steps. -/
def explode_horizontal_tree_submassa (tree : List SubTreeRow)
    (port : List PortSubmassaRow) : List SubTreeRow :=
  let t0 := tree.map init_row
  if tree.isEmpty then t0
  else
    fill_bsps (fill_pct
      ((List.range (sub_max_nivel tree + 1)).foldl
        (fun t i => explode_level port i t) t0))

/-- One input row through all level passes (used to state the per-row
precedence properties; the table-level fold is shown equal to the
concatenation of these). -/
def row_pipeline (port : List PortSubmassaRow) (l : List ℕ)
    (r : SubTreeRow) : List SubTreeRow :=
  l.foldl (fun acc i => acc.flatMap (explode_row port i)) [r]

/-- Concrete Splitter input row for the C3 counterexample: its level-0
isin I0 and level-1 isin I1 both appear in the mapping, with different
sub-groups. -/
def c3_row : SubTreeRow :=
  { dtposicao := "20240131", cnpb := "P1", nivel := 1,
    isin := some "I0", isin_levels := [some "I1"], valor_calc := 1000 }

/-- The one-row tree of the C3 counterexample. -/
def c3_tree : List SubTreeRow := [c3_row]

/-- The mapping entry matching c3_row at level 0: sub-group S1. -/
def c3_p0 : PortSubmassaRow :=
  { dtposicao := "20240131", CNPB := "P1", isin := some "I0",
    CODCART := some "C1", COD_SUBMASSA := some "S1", SUBMASSA := some "SUB1",
    pct_submassa_isin_cnpb := some (3/10) }

/-- The mapping entry matching c3_row at level 1: sub-group S2. -/
def c3_p1 : PortSubmassaRow :=
  { dtposicao := "20240131", CNPB := "P1", isin := some "I1",
    CODCART := some "C1", COD_SUBMASSA := some "S2", SUBMASSA := some "SUB2",
    pct_submassa_isin_cnpb := some (1/2) }

/-- Mapping for the C3 counterexample. -/
def c3_port : List PortSubmassaRow := [c3_p0, c3_p1]

/-- Concrete Splitter input row for the C8 example: a 1000-value
position at level 0 whose isin is shared 60/40 between two
sub-groups. -/
def c8_row : SubTreeRow :=
  { dtposicao := "20240131", cnpb := "P1", nivel := 0,
    isin := some "I0", isin_levels := [], valor_calc := 1000 }

/-- The one-row tree of the C8 example. -/
def c8_tree : List SubTreeRow := [c8_row]

/-- The 60/40 source mapping for C8: the two sub-group registrations of
the same (date, plan, instrument) carry values 600 and 400. -/
def c8_port_src : List PortSubmassaSrcRow :=
  [{ dtposicao := "20240131", CNPB := "P1", isin := some "I0",
     CODCART := some "C1", COD_SUBMASSA := some "S1", SUBMASSA := some "SUB1",
     valor_calc := 600 },
   { dtposicao := "20240131", CNPB := "P1", isin := some "I0",
     CODCART := some "C1", COD_SUBMASSA := some "S2", SUBMASSA := some "SUB2",
     valor_calc := 400 }]

/-- The C8 mapping as the Splitter reads it: proration factors computed
by compute_composition_portfolio_submassa, then column-selected. -/
def c8_port : List PortSubmassaRow :=
  (compute_composition_portfolio_submassa c8_port_src).map select_cols

/-- An unmatched row for the C8 default-bucket part: its instrument id
appears nowhere in the mapping. -/
def c8_unmatched_row : SubTreeRow :=
  { dtposicao := "20240131", cnpb := "P1", nivel := 0,
    isin := some "IX", isin_levels := [], valor_calc := 500 }

/-- The one-row tree of the C8 default-bucket part. -/
def c8_unmatched_tree : List SubTreeRow := [c8_unmatched_row]

/-- The C8 counterexample row: it matches the mapping at two levels. -/
def c8x_row : SubTreeRow :=
  { dtposicao := "20240131", cnpb := "P1", nivel := 1,
    isin := some "I0", isin_levels := [some "I1"], valor_calc := 1000 }

/-- The one-row tree of the C8 counterexample. -/
def c8x_tree : List SubTreeRow := [c8x_row]

/-- Mapping for the C8 counterexample: one entry for the level-0 isin
and two entries for the level-1 isin, so the row has three matching
mapping entries in total. -/
def c8x_port : List PortSubmassaRow :=
  [{ dtposicao := "20240131", CNPB := "P1", isin := some "I0",
     CODCART := some "C1", COD_SUBMASSA := some "S1", SUBMASSA := some "SUB1",
     pct_submassa_isin_cnpb := some 1 },
   { dtposicao := "20240131", CNPB := "P1", isin := some "I1",
     CODCART := some "C1", COD_SUBMASSA := some "S2", SUBMASSA := some "SUB2",
     pct_submassa_isin_cnpb := some 1 },
   { dtposicao := "20240131", CNPB := "P1", isin := some "I1",
     CODCART := some "C1", COD_SUBMASSA := some "S3", SUBMASSA := some "SUB3",
     pct_submassa_isin_cnpb := some 1 }]

end Submassa

namespace Builder

/-- A fund-table row as build_tree prepares it
(src/investment_tree/builder.py:141-174): the fund id (cnpj), the
valor_serie filter column, and of cols_common the fields the expansion
logic reads (date, own fund reference, display name, manager).  The
remaining cols_common entries are value columns carried along unchanged
by the merge and are omitted from the embedding. -/
structure FundRowB where
  cnpj : String
  valor_serie : ℚ
  dtposicao : String
  cnpjfundo : Option String
  new_nome_ativo : Option String
  new_gestor : Option String
deriving DecidableEq, Repr

/-- A portfolio row as build_tree reads it: the filter columns
flag_rateio and valor_serie, cols_port, and the cols_common fields the
expansion logic reads. -/
structure PortRowB where
  cnpjcpf : String
  codcart : String
  cnpb : String
  flag_rateio : ℚ
  valor_serie : ℚ
  dtposicao : String
  cnpjfundo : Option String
  new_nome_ativo : Option String
  new_gestor : Option String
deriving DecidableEq, Repr

/-- A row of the horizontal tree: the level-0 portfolio columns, the
nivel counter, and one appended fund-row group per resolved level
(the _nivel_k suffixed column groups), plus the PARENT display
columns. -/
structure TreeRowB where
  cnpjcpf : String
  codcart : String
  cnpb : String
  dtposicao : String
  cnpjfundo : Option String
  new_nome_ativo : Option String
  new_gestor : Option String
  nivel : ℕ
  levels : List FundRowB
  parent_fundo : Option String := none
  parent_fundo_gestor : Option String := none
deriving DecidableEq, Repr, Inhabited

/-- The join column of recursion step deep: cnpjfundo for deep = 0,
cnpjfundo_nivel_deep otherwise (NaN when the row has fewer resolved
levels). -/
def ref_at (r : TreeRowB) (deep : ℕ) : Option String :=
  if deep = 0 then r.cnpjfundo
  else (r.levels[deep - 1]?).bind (fun f => f.cnpjfundo)

/-- The NEW_NOME_ATIVO column of the level the sufix of
builder.py:42-44 addresses (the immediate parent of the newly joined
level). -/
def name_at (r : TreeRowB) (deep : ℕ) : Option String :=
  if deep = 0 then r.new_nome_ativo
  else (r.levels[deep - 1]?).bind (fun f => f.new_nome_ativo)

/-- The NEW_GESTOR column of the immediate parent level. -/
def gestor_at (r : TreeRowB) (deep : ℕ) : Option String :=
  if deep = 0 then r.new_gestor
  else (r.levels[deep - 1]?).bind (fun f => f.new_gestor)

/-- The fund rows the step-deep left merge joins to a frontier row:
funds with cnpj equal to the row's current fund reference and the same
date (builder.py:29-36); a NaN reference matches nothing. -/
def fund_matches (funds : List FundRowB) (r : TreeRowB) (deep : ℕ) :
    List FundRowB :=
  funds.filter (fun f =>
    decide (some f.cnpj = ref_at r deep ∧ f.dtposicao = r.dtposicao))

/-- One frontier row through the step-deep merge: an unmatched row keeps
its prior values (a dangling or absent reference is not an error), a
matched row fans out over the matching fund rows, appends the new level
group, sets nivel to deep + 1 and records the immediate parent's display
name and manager (builder.py:38-44). -/
def expand_row (funds : List FundRowB) (deep : ℕ) (r : TreeRowB) :
    List TreeRowB :=
  let ms := fund_matches funds r deep
  if ms.isEmpty then [r]
  else ms.map (fun f =>
    { r with nivel := deep + 1, levels := r.levels ++ [f],
             parent_fundo := name_at r deep,
             parent_fundo_gestor := gestor_at r deep })

/-- Embeds build_tree_horizontal (src/investment_tree/builder.py:10-49):
if no frontier row has a reference at the current depth, return the
frontier unchanged; otherwise left-merge against the funds and recurse
one level deeper.  The Python recursion has no fuel; the fuel argument
makes the recursion well-founded in Lean and returning the frontier at
fuel 0 stands for the diverging executions (which the acyclicity of the
fund graph is meant to exclude). -/
def build_tree_horizontal (funds : List FundRowB) :
    ℕ → ℕ → List TreeRowB → List TreeRowB
  | 0, _, rows => rows
  | fuel + 1, deep, rows =>
    if rows.all (fun r => (ref_at r deep).isNone) then rows
    else build_tree_horizontal funds fuel (deep + 1)
      (rows.flatMap (expand_row funds deep))

/-- The level-0 tree row build_tree makes of a filtered portfolio row
(builder.py:166-172): nivel 0 and no resolved level groups. -/
def port_to_tree_row (p : PortRowB) : TreeRowB :=
  { cnpjcpf := p.cnpjcpf, codcart := p.codcart, cnpb := p.cnpb,
    dtposicao := p.dtposicao, cnpjfundo := p.cnpjfundo,
    new_nome_ativo := p.new_nome_ativo, new_gestor := p.new_gestor,
    nivel := 0, levels := [] }

/-- Embeds build_tree (src/investment_tree/builder.py:141-174): filter
funds to valor_serie = 0, portfolios to flag_rateio = 0 and
valor_serie = 0, set nivel = 0, and expand. -/
def build_tree (funds : List FundRowB) (portfolios : List PortRowB)
    (fuel : ℕ) : List TreeRowB :=
  let funds2 := funds.filter (fun f => decide (f.valor_serie = 0))
  let ports2 := portfolios.filter (fun p =>
    decide (p.flag_rateio = 0 ∧ p.valor_serie = 0))
  build_tree_horizontal funds2 fuel 0 (ports2.map port_to_tree_row)

/-- A fund row for the C9 witness. -/
def c9_fund : FundRowB :=
  { cnpj := "F1", valor_serie := 0, dtposicao := "20240131",
    cnpjfundo := none, new_nome_ativo := some "FUND ONE",
    new_gestor := some "MGR" }

/-- The C9 fund table. -/
def c9_funds : List FundRowB := [c9_fund]

/-- A portfolio position with no fund reference (a leaf at level 0). -/
def c9_leaf_port : PortRowB :=
  { cnpjcpf := "01", codcart := "CART1", cnpb := "P1",
    flag_rateio := 0, valor_serie := 0, dtposicao := "20240131",
    cnpjfundo := none, new_nome_ativo := some "CASH",
    new_gestor := none }

/-- A portfolio position whose fund reference resolves to no fund row
(a dangling reference). -/
def c9_dangling_port : PortRowB :=
  { cnpjcpf := "01", codcart := "CART1", cnpb := "P1",
    flag_rateio := 0, valor_serie := 0, dtposicao := "20240131",
    cnpjfundo := some "DANG", new_nome_ativo := some "GHOST",
    new_gestor := none }

/-- The C9 portfolio table. -/
def c9_ports : List PortRowB := [c9_leaf_port, c9_dangling_port]

end Builder

namespace Gov

/-- One level-indexed column group of the tree as
assign_estrutura_gerencial_key reads it
(src/reporting/governance_struct.py:100-106): the fund id, value,
return, display name and type columns of that level (index 0 holds the
unsuffixed columns, index i the _nivel_i ones). -/
structure GovLevel where
  cnpjfundo : Option String
  valor_calc : Option ℚ
  rentab : Option ℚ
  nome_ativo : Option String
  tipo : Option String
deriving DecidableEq, Repr, Inhabited

/-- A tree row as the governance-key resolver reads it: the grouping
columns (codcart, dtposicao, cnpb), nivel, the level column groups, the
default contribution source columns (valor_calc_proporcional,
rentab_nominal, the _FINAL text columns), total_invest, and the eight
output columns the resolver maintains. -/
structure GovRow where
  codcart : Option String
  dtposicao : String
  cnpb : String
  nivel : ℕ
  levels : List GovLevel
  valor_calc_proporcional : Option ℚ
  rentab_nominal : Option ℚ
  nome_ativo_final : Option String
  tipo_final : Option String
  total_invest : ℚ
  KEY_ESTRUTURA_GERENCIAL : Option String := none
  contribution_match : Option String := none
  contribution_valor_calc : Option ℚ := some 0
  contribution_composicao : Option ℚ := none
  contribution_rentab_nominal : Option ℚ := none
  contribution_rentab_ponderada : Option ℚ := none
  contribution_ativo : Option String := none
  contribution_tipo : Option String := none
deriving DecidableEq, Repr, Inhabited

/-- An all-NaN level group (the columns of a level a row never
reached). -/
def nan_level : GovLevel :=
  { cnpjfundo := none, valor_calc := none, rentab := none,
    nome_ativo := none, tipo := none }

/-- The level-i column group of a row. -/
def level_data (r : GovRow) (i : ℕ) : GovLevel :=
  r.levels.getD i nan_level

/-- The cnpjfundo column of level i. -/
def level_cnpj (r : GovRow) (i : ℕ) : Option String :=
  (level_data r i).cnpjfundo

/-- Series.isin against the governance vehicle list: a missing value is
never a member. -/
def in_set (ks : List String) (o : Option String) : Bool :=
  match o with
  | some v => ks.contains v
  | none => false

/-- Embeds _fill_contribution_cols
(src/reporting/governance_struct.py:10-29) on one row, parameterized by
the values of the four source columns: contribution value, display name,
composition = contribution value / total_invest, nominal return and
weighted return = nominal return * composition, and type (NaN
propagates). -/
def fill_contribution (r : GovRow) (vl rentab : Option ℚ)
    (ativo tipo : Option String) : GovRow :=
  let comp := vl.map (fun v => v / r.total_invest)
  { r with contribution_valor_calc := vl,
           contribution_ativo := ativo,
           contribution_composicao := comp,
           contribution_rentab_nominal := rentab,
           contribution_rentab_ponderada :=
             match rentab, comp with
             | some x, some c => some (x * c)
             | _, _ => none,
           contribution_tipo := tipo }

/-- _fill_contribution_cols with its default column arguments
(valor_calc_proporcional, rentab_nominal, NEW_NOME_ATIVO_FINAL,
NEW_TIPO_FINAL). -/
def fill_contribution_default (r : GovRow) : GovRow :=
  fill_contribution r r.valor_calc_proporcional r.rentab_nominal
    r.nome_ativo_final r.tipo_final

/-- The duplicated-subset test of the level-i pass: equality on
(codcart, dtposicao, cnpb, cnpjfundo_nivel_i); pandas treats NaN keys as
equal to NaN for duplicated, which Option equality mirrors. -/
def same_combo (a b : GovRow) (i : ℕ) : Prop :=
  a.codcart = b.codcart ∧ a.dtposicao = b.dtposicao ∧ a.cnpb = b.cnpb
    ∧ level_cnpj a i = level_cnpj b i

instance (a b : GovRow) (i : ℕ) : Decidable (same_combo a b i) := by
  unfold same_combo
  infer_instance

/-- first row of its (group, level-i id) combination in table order:
no earlier row shares the duplicated-subset columns
(~tree.duplicated(subset=group_cols + [cnpj_col]),
governance_struct.py:117). -/
def first_in_group (tree : List GovRow) (i j : ℕ) (r : GovRow) : Bool :=
  (tree.take j).all (fun s => !(decide (same_combo s r i)))

/-- The level-i eligibility mask (governance_struct.py:108-111): key
still unset, level-i fund id in the governance set, and no match
recorded yet. -/
def gov_mask (ks : List String) (i : ℕ) (r : GovRow) : Bool :=
  r.KEY_ESTRUTURA_GERENCIAL.isNone && in_set ks (level_cnpj r i)
    && r.contribution_match.isNone

/-- Indexed map (the row position j is what the duplicated test needs). -/
def map_with_index {α β : Type} (f : ℕ → α → β) : ℕ → List α → List β
  | _, [] => []
  | j, x :: xs => f j x :: map_with_index f (j + 1) xs

/-- One iteration of the level loop of assign_estrutura_gerencial_key
(governance_struct.py:101-121): record the match candidate for every
masked row, and give the key and the contribution columns to the masked
rows that are first of their (group, level-i id) combination; the mask
and the duplicated test are computed against the table state entering
the iteration. -/
def level_pass (ks : List String) (tree : List GovRow) (i : ℕ) :
    List GovRow :=
  map_with_index (fun j r =>
    let m := gov_mask ks i r
    let mk := m && first_in_group tree i j r
    let r1 := if m then { r with contribution_match := level_cnpj r i } else r
    if mk then
      fill_contribution
        { r1 with KEY_ESTRUTURA_GERENCIAL := level_cnpj r i }
        (level_data r i).valor_calc (level_data r i).rentab
        (level_data r i).nome_ativo (level_data r i).tipo
    else r1) 0 tree

/-- The initialization block of assign_estrutura_gerencial_key
(governance_struct.py:96-98). -/
def reset_row (r : GovRow) : GovRow :=
  { r with KEY_ESTRUTURA_GERENCIAL := none,
           contribution_valor_calc := some 0,
           contribution_match := none }

/-- Whether the level-0 cnpjfundo is present and non-empty
(tree['cnpjfundo'].notna() & (tree['cnpjfundo'] != '')). -/
def has_nonempty_cnpjfundo (r : GovRow) : Bool :=
  match level_cnpj r 0 with
  | some s => decide (s ≠ "")
  | none => false

/-- The fallback mask of assign_estrutura_gerencial_key
(governance_struct.py:123-127): no match recorded and a present,
non-empty level-0 cnpjfundo. -/
def fallback_mask (r : GovRow) : Bool :=
  r.contribution_match.isNone && has_nonempty_cnpjfundo r

/-- The fallback block (governance_struct.py:123-131): masked rows get
the catch-all key '#OUTROS' and the default contribution columns. -/
def apply_fallback (r : GovRow) : GovRow :=
  if fallback_mask r then
    fill_contribution_default
      { r with contribution_match := some "#OUTROS",
               KEY_ESTRUTURA_GERENCIAL := some "#OUTROS" }
  else r

/-- Embeds assign_estrutura_gerencial_key
(src/reporting/governance_struct.py:69-131): initialize the output
columns, run the level passes for i = 0 .. max_deep, apply the
fallback. -/
def assign_estrutura_gerencial_key (tree : List GovRow)
    (ks : List String) (max_deep : ℕ) : List GovRow :=
  ((List.range (max_deep + 1)).foldl (level_pass ks)
    (tree.map reset_row)).map apply_fallback

/-- One row of fill_missing_governance_struct
(src/reporting/governance_struct.py:32-66): rows whose
contribution_match is missing or empty get codcart as key and match when
codcart is a governance vehicle and '#OUTROS' otherwise, plus the
default contribution columns; the masks are computed before the
updates. -/
def fill_missing_row (ks : List String) (r : GovRow) : GovRow :=
  let missing := r.contribution_match.isNone || (r.contribution_match == some "")
  let incart := match r.codcart with
                | some s => ks.contains s
                | none => false
  if missing then
    fill_contribution_default
      (if incart then
        { r with contribution_match := r.codcart,
                 KEY_ESTRUTURA_GERENCIAL := r.codcart }
      else
        { r with KEY_ESTRUTURA_GERENCIAL := some "#OUTROS",
                 contribution_match := some "#OUTROS" })
  else r

/-- Embeds fill_missing_governance_struct
(src/reporting/governance_struct.py:32-66). -/
def fill_missing_governance_struct (tree : List GovRow)
    (ks : List String) : List GovRow :=
  tree.map (fill_missing_row ks)

/-- A row of the governance_struct table (only the KEY_VEICULO column is
read). -/
structure GovStructRow where
  KEY_VEICULO : Option String
deriving DecidableEq, Repr

/-- governance_struct['KEY_VEICULO'].dropna().unique()
(governance_struct.py:158). -/
def key_vehicle_list (gs : List GovStructRow) : List String :=
  (gs.filterMap (fun g => g.KEY_VEICULO)).dedup

/-- tree_horzt['nivel'].max(). -/
def gov_max_nivel (tree : List GovRow) : ℕ :=
  (tree.map (fun r => r.nivel)).foldl max 0

/-- Embeds assign_governance_struct_keys
(src/reporting/governance_struct.py:134-164): the level scan followed by
the codcart-based fill of the still-unmatched rows. -/
def assign_governance_struct_keys (tree : List GovRow)
    (gs : List GovStructRow) : List GovRow :=
  let ks := key_vehicle_list gs
  fill_missing_governance_struct
    (assign_estrutura_gerencial_key tree ks (gov_max_nivel tree)) ks

/-- The shallowest level among 0 .. n-1 whose fund id is in the
governance set (the closed form the level loop is proved to
implement). -/
def first_gov_level (ks : List String) (r : GovRow) : ℕ → Option ℕ
  | 0 => none
  | n + 1 =>
    match first_gov_level ks r n with
    | some i => some i
    | none => if in_set ks (level_cnpj r n) then some n else none

/-- The closed form of row j after the level passes 0 .. k-1 (proved
equal to the loop's result): the row is reset; if some level below k
matches, the shallowest one becomes the candidate, and the row becomes
the carrier exactly when it is first of its (group, level id)
combination in table order. -/
def scan_row (ks : List String) (tree : List GovRow) (k j : ℕ) : GovRow :=
  let orig := tree.getD j default
  let r0 := reset_row orig
  match first_gov_level ks orig k with
  | none => r0
  | some i =>
    let r1 := { r0 with contribution_match := level_cnpj orig i }
    if first_in_group tree i j orig then
      fill_contribution
        { r1 with KEY_ESTRUTURA_GERENCIAL := level_cnpj orig i }
        (level_data orig i).valor_calc (level_data orig i).rentab
        (level_data orig i).nome_ativo (level_data orig i).tipo
    else r1

/-- The chain row of the C2 example: Portfolio holding FundA
(ungoverned), which holds FundB (governed), which holds FundC
(governed). -/
def c2_chain_row : GovRow :=
  { codcart := some "CART1", dtposicao := "20240131", cnpb := "P1",
    nivel := 2,
    levels :=
      [{ cnpjfundo := some "FA", valor_calc := none, rentab := none,
         nome_ativo := some "FUND A", tipo := some "COTAS" },
       { cnpjfundo := some "FB", valor_calc := some 100, rentab := none,
         nome_ativo := some "FUND B", tipo := some "COTAS" },
       { cnpjfundo := some "FC", valor_calc := some 80, rentab := none,
         nome_ativo := some "FUND C", tipo := some "ACOES" }],
    valor_calc_proporcional := none, rentab_nominal := none,
    nome_ativo_final := none, tipo_final := none, total_invest := 1 }

/-- The one-row chain tree of the C2 example. -/
def c2_chain_tree : List GovRow := [c2_chain_row]

/-- C2 counterexample row 1: vehicle V appears at its level 1. -/
def c2x_r1 : GovRow :=
  { codcart := some "G", dtposicao := "20240131", cnpb := "P1", nivel := 1,
    levels :=
      [{ cnpjfundo := some "Z0", valor_calc := none, rentab := none,
         nome_ativo := none, tipo := none },
       { cnpjfundo := some "V", valor_calc := some 100, rentab := none,
         nome_ativo := some "FUND V", tipo := some "COTAS" }],
    valor_calc_proporcional := none, rentab_nominal := none,
    nome_ativo_final := none, tipo_final := none, total_invest := 1 }

/-- C2 counterexample row 2, in the same (codcart, date, plan) group:
vehicle V appears at its level 2 (its level 1 is ungoverned). -/
def c2x_r2 : GovRow :=
  { codcart := some "G", dtposicao := "20240131", cnpb := "P1", nivel := 2,
    levels :=
      [{ cnpjfundo := some "Z0", valor_calc := none, rentab := none,
         nome_ativo := none, tipo := none },
       { cnpjfundo := some "W", valor_calc := some 50, rentab := none,
         nome_ativo := some "FUND W", tipo := some "COTAS" },
       { cnpjfundo := some "V", valor_calc := some 200, rentab := none,
         nome_ativo := some "FUND V", tipo := some "COTAS" }],
    valor_calc_proporcional := none, rentab_nominal := none,
    nome_ativo_final := none, tipo_final := none, total_invest := 1 }

/-- C2 counterexample row 3, same group: vehicle V at level 1 again, a
duplicate of row 1's (group, level-1 id) combination. -/
def c2x_r3 : GovRow :=
  { codcart := some "G", dtposicao := "20240131", cnpb := "P1", nivel := 1,
    levels :=
      [{ cnpjfundo := some "Z0", valor_calc := none, rentab := none,
         nome_ativo := none, tipo := none },
       { cnpjfundo := some "V", valor_calc := some 300, rentab := none,
         nome_ativo := some "FUND V", tipo := some "COTAS" }],
    valor_calc_proporcional := none, rentab_nominal := none,
    nome_ativo_final := none, tipo_final := none, total_invest := 1 }

/-- The three-row table of the C2 counterexample and witness. -/
def c2x_tree : List GovRow := [c2x_r1, c2x_r2, c2x_r3]

/-- A row with a null top-level fund reference for C4. -/
def c4_row : GovRow :=
  { codcart := some "X", dtposicao := "20240131", cnpb := "P1", nivel := 0,
    levels := [nan_level],
    valor_calc_proporcional := none, rentab_nominal := none,
    nome_ativo_final := none, tipo_final := none, total_invest := 1 }

/-- The one-row tree of C4. -/
def c4_tree : List GovRow := [c4_row]

/-- The governance structure of C4: one vehicle V, unrelated to the
row. -/
def c4_gs : List GovStructRow := [{ KEY_VEICULO := some "V" }]

end Gov

/- ===================== Theorems ===================== -/

namespace Acyclic

/-- C1: the claim says the acyclicity validator raises a ValueError on
every cyclic derived edge set and returns normally on acyclic ones.  The
code contradicts its own docstring: since the topological-sort generator
is never consumed, validate_fund_graph_is_acyclic returns normally on
every input, in particular on the concrete two-fund cycle A→B→A, whose
edge set is cyclic and on which the documented behaviour would raise. -/
theorem c1_cycle_validator_never_raises :
    (∀ funds, validate_fund_graph_is_acyclic funds = Except.ok ())
    ∧ has_cycle (fund_edges cyclic_funds) = true
    ∧ validate_fund_graph_is_acyclic_docstring cyclic_funds =
        Except.error "Cycle detected in fund relationships" := by
  refine ⟨fun funds => rfl, by decide, ?_⟩
  simp [validate_fund_graph_is_acyclic_docstring,
    show has_cycle (fund_edges cyclic_funds) = true from by decide]

end Acyclic

namespace ArityCheck

/-- C10: the orchestrator invokes compute_plan_returns_adjustment with
four positional arguments while the function takes exactly three
parameters, so the plan-return reconciliation call raises a TypeError
before running the body, for every body and every input: no adjustment
rows are produced by this code path. -/
theorem c10_reconciliation_call_type_error :
    (∀ (α : Type) (body : Unit → α),
      plan_returns_reconciliation_call body = PyCallResult.typeError)
    ∧ compute_plan_returns_adjustment_arg_count
        ≠ compute_plan_returns_adjustment_param_count := by
  exact ⟨fun α body => rfl, by decide⟩

end ArityCheck

namespace EnrichValues

/-- Generic helper: membership in a fold of per-element maps traces back
to a starting row with the same value of any projection the per-element
functions preserve. -/
theorem mem_foldl_map {α β γ : Type} (g : α → γ) (f : β → α → α)
    (step : List α → β → List α)
    (hstep : ∀ acc i, step acc i = acc.map (f i))
    (hg : ∀ i r, g (f i r) = g r) :
    ∀ (l : List β) (t : List α) (r : α),
      r ∈ l.foldl step t → ∃ s ∈ t, g r = g s := by
  intro l
  induction l with
  | nil => exact fun t r h => ⟨r, h, rfl⟩
  | cons i l ih =>
    intro t r h
    rw [List.foldl_cons, hstep] at h
    obtain ⟨s1, hs1, hgs⟩ := ih (t.map (f i)) r h
    obtain ⟨s, hs, rfl⟩ := List.mem_map.mp hs1
    exact ⟨s, hs, by rw [hgs, hg]⟩

/-- Generic helper: a map whose function preserves a filter predicate and
a projection leaves the filtered projection of the table unchanged. -/
theorem filter_map_map {α γ : Type} (p : α → Bool) (h : α → γ) (f : α → α)
    (hp : ∀ r, p (f r) = p r) (hh : ∀ r, h (f r) = h r) :
    ∀ t : List α, ((t.map f).filter p).map h = (t.filter p).map h := by
  intro t
  induction t with
  | nil => rfl
  | cons x xs ih =>
    simp only [List.map_cons, List.filter_cons, hp]
    cases hx : p x
    · simpa [hx] using ih
    · simpa [hx, hh] using ih

/-- Generic helper: filtered projections are stable under a fold of
predicate- and projection-preserving maps. -/
theorem filter_map_foldl_map {α β γ : Type} (p : α → Bool) (h : α → γ)
    (f : β → α → α) (step : List α → β → List α)
    (hstep : ∀ acc i, step acc i = acc.map (f i))
    (hp : ∀ i r, p (f i r) = p r) (hh : ∀ i r, h (f i r) = h r) :
    ∀ (l : List β) (t : List α),
      ((l.foldl step t).filter p).map h = (t.filter p).map h := by
  intro l
  induction l with
  | nil => intro t; rfl
  | cons i l ih =>
    intro t
    rw [List.foldl_cons, hstep, ih, filter_map_map p h (f i) (hp i) (hh i)]

/-- Generic helper: a fold of per-element maps preserves the length. -/
theorem length_foldl_map {α β : Type} (f : β → α → α)
    (step : List α → β → List α)
    (hstep : ∀ acc i, step acc i = acc.map (f i)) :
    ∀ (l : List β) (t : List α), (l.foldl step t).length = t.length := by
  intro l
  induction l with
  | nil => intro t; rfl
  | cons i l ih => intro t; rw [List.foldl_cons, hstep, ih, List.length_map]

/-- Helper: sum of a list of quotients with a common denominator. -/
theorem list_sum_div {α : Type} (l : List α) (h : α → ℚ) (c : ℚ) :
    (l.map (fun x => h x / c)).sum = (l.map h).sum / c := by
  induction l with
  | nil => simp
  | cons x xs ih => simp [ih, add_div]

/-- Helper: the accumulated-stake product of accumulate_columns_by_level
agrees with the product of the level columns 0..d. -/
theorem stake_prod_formula (r : VRow) (d : ℕ) :
    ((List.range d).map (fun k => (r.equity_stake_levels.getD k none).getD 1)).prod
      * r.equity_stake.getD 1
    = ((List.range (d + 1)).map (fun i => (stake_col r i).getD 1)).prod := by
  rw [List.range_succ_eq_map, List.map_cons, List.prod_cons, List.map_map]
  have hcomp :
      ((fun i => (stake_col r i).getD 1) ∘ Nat.succ)
        = fun k => (r.equity_stake_levels.getD k none).getD 1 := by
    funext k
    simp [Function.comp, stake_col]
  rw [hcomp]
  simp [stake_col, mul_comm]

/-- Helper: length of enrich_values output equals input length. -/
theorem enrich_values_length (tree : List VRow) :
    (enrich_values tree).length = tree.length := by
  unfold enrich_values compute_weighted_returns assign_composicao
    assign_total_invest compute_proportional_value accumulate_columns_by_level
  rw [length_foldl_map _ _ (fun acc i => rfl)]
  simp only [List.length_map]
  rw [length_foldl_map _ _ (fun acc i => rfl)]
  simp only [List.length_map]

end EnrichValues

namespace EnrichValues

/-- Generic helper: membership in a fold traces back to the start along
any projection each step preserves row-wise. -/
theorem mem_foldl_of_step {α β γ : Type} (g : α → γ) (step : List α → β → List α)
    (hstep : ∀ acc i r, r ∈ step acc i → ∃ s ∈ acc, g r = g s) :
    ∀ (l : List β) (t : List α) (r : α), r ∈ l.foldl step t → ∃ s ∈ t, g r = g s := by
  intro l
  induction l with
  | nil => exact fun t r h => ⟨r, h, rfl⟩
  | cons i l ih =>
    intro t r h
    obtain ⟨s1, hs1, hg1⟩ := ih (step t i) r h
    obtain ⟨s, hs, hg2⟩ := hstep t i s1 hs1
    exact ⟨s, hs, hg1.trans hg2⟩

/-- Generic helper: filtered projections are stable under a fold whose
steps leave them unchanged. -/
theorem filter_map_foldl_of_step {α β γ : Type} (p : α → Bool) (h : α → γ)
    (step : List α → β → List α)
    (hstep : ∀ acc i, ((step acc i).filter p).map h = (acc.filter p).map h) :
    ∀ (l : List β) (t : List α),
      ((l.foldl step t).filter p).map h = (t.filter p).map h := by
  intro l
  induction l with
  | nil => intro t; rfl
  | cons i l ih => intro t; rw [List.foldl_cons, ih, hstep]

/-- The projection of a row onto the fields the stake claim is about. -/
def stake_view (r : VRow) : Option ℚ × List (Option ℚ) × ℚ :=
  (r.equity_stake, r.equity_stake_levels, r.equity_stake_leaf)

/-- Helper: the stages after stake accumulation preserve the stake view. -/
theorem stake_view_after_accumulate (tree : List VRow) (r : VRow)
    (hr : r ∈ enrich_values tree) :
    ∃ s ∈ accumulate_columns_by_level tree (max_nivel tree),
      stake_view r = stake_view s := by
  simp only [enrich_values] at hr
  unfold compute_weighted_returns at hr
  obtain ⟨s4, hs4, hg4⟩ := mem_foldl_of_step stake_view _
    (by
      intro acc i x hx
      obtain ⟨s, hs, rfl⟩ := List.mem_map.mp hx
      exact ⟨s, hs, by split <;> rfl⟩) _ _ r hr
  unfold assign_composicao at hs4
  obtain ⟨s3, hs3, rfl⟩ := List.mem_map.mp hs4
  unfold assign_total_invest at hs3
  obtain ⟨s2, hs2, rfl⟩ := List.mem_map.mp hs3
  unfold compute_proportional_value at hs2
  obtain ⟨s1, hs1, hg1⟩ := mem_foldl_of_step stake_view _
    (by
      intro acc i x hx
      obtain ⟨s, hs, rfl⟩ := List.mem_map.mp hx
      exact ⟨s, hs, by split <;> rfl⟩) _ _ s2 hs2
  exact ⟨s1, hs1, hg4.trans hg1⟩

/-- C5: for every tree, every row of the enriched output has accumulated
stake equal to the product of its per-level equity_stake columns over
levels 0 .. max_nivel, each missing stake replaced by the neutral 1. -/
theorem c5_accumulated_stake_is_level_product (tree : List VRow) :
    ∀ r ∈ enrich_values tree,
      r.equity_stake_leaf
        = ((List.range (max_nivel tree + 1)).map
            (fun i => (stake_col r i).getD 1)).prod := by
  intro r hr
  obtain ⟨s1, hs1, hg⟩ := stake_view_after_accumulate tree r hr
  unfold accumulate_columns_by_level at hs1
  obtain ⟨s0, _, rfl⟩ := List.mem_map.mp hs1
  have hstake : r.equity_stake = s0.equity_stake ∧
      r.equity_stake_levels = s0.equity_stake_levels ∧
      r.equity_stake_leaf
        = ((List.range (max_nivel tree)).map (fun k =>
            (s0.equity_stake_levels.getD k none).getD 1)).prod
          * s0.equity_stake.getD 1 := by
    simpa [stake_view, Prod.ext_iff] using hg
  obtain ⟨h1, h2, h3⟩ := hstake
  rw [h3, stake_prod_formula s0 (max_nivel tree)]
  have hfun : (fun i => (stake_col s0 i).getD 1) = fun i => (stake_col r i).getD 1 := by
    funext i
    simp [stake_col, h1, h2]
  rw [hfun]

/-- Helper: the head of a nonempty list is a member. -/
theorem headI_mem_of_ne {α : Type} [Inhabited α] {l : List α} (h : l ≠ []) :
    l.headI ∈ l := by
  cases l with
  | nil => exact absurd rfl h
  | cons x xs => exact List.mem_cons_self x xs

/-- Witness for C5: the single-chain tree with stakes 0.5 and 0.4 is in
the scope of the theorem, and its accumulated stake evaluates to 0.2. -/
theorem c5_witness :
    (enrich_values c5_tree).headI.equity_stake_leaf
      = ((List.range (max_nivel c5_tree + 1)).map
          (fun i => (stake_col ((enrich_values c5_tree).headI) i).getD 1)).prod
    ∧ (enrich_values c5_tree).headI.equity_stake_leaf = 1/5 := by
  have hne : enrich_values c5_tree ≠ [] := by
    intro h
    have hl := congrArg List.length h
    rw [enrich_values_length] at hl
    simp [c5_tree] at hl
  refine ⟨c5_accumulated_stake_is_level_product c5_tree _ (headI_mem_of_ne hne), ?_⟩
  simp [enrich_values, accumulate_columns_by_level, compute_proportional_value,
    assign_total_invest, assign_composicao, compute_weighted_returns, max_nivel,
    c5_tree, List.range_succ, total_invest_of, group_key, valor_col, rentab_col]
  norm_num

/-- The projection of a row onto the fields the composition claim is
about. -/
def comp_view (r : VRow) :
    (String × String × String) × Option ℚ × ℚ × Option ℚ :=
  (group_key r, r.valor_calc_proporcional, r.total_invest, r.composicao)

/-- Helper: the group lists of proportional values agree between the
final output and the table right after compute_proportional_value
(the later stages change neither the group key nor the values). -/
theorem out_group_vcp (tree : List VRow) (k : String × String × String) :
    ((enrich_values tree).filter (fun s => group_key s = k)).map
        (fun s => s.valor_calc_proporcional.getD 0)
      = ((compute_proportional_value
            (accumulate_columns_by_level tree (max_nivel tree))
            (max_nivel tree)).filter (fun s => group_key s = k)).map
          (fun s => s.valor_calc_proporcional.getD 0) := by
  simp only [enrich_values]
  unfold compute_weighted_returns
  have hstage3 := filter_map_foldl_of_step
    (fun s : VRow => decide (group_key s = k))
    (fun s : VRow => s.valor_calc_proporcional.getD 0)
    (fun t i => t.map (fun r =>
      if r.nivel = i then
        { r with
          rentab_ponderada := r.composicao.map (fun c =>
            c * (rentab_col r i).getD 0 * r.pct_submassa_isin_cnpb.getD 1),
          rentab_nominal := rentab_col r i }
      else r))
    (fun acc i => filter_map_map _ _ _
      (fun r => by split <;> rfl) (fun r => by split <;> rfl) acc)
  rw [hstage3]
  unfold assign_composicao assign_total_invest
  have hstage2 := filter_map_map
    (fun s : VRow => decide (group_key s = k))
    (fun s : VRow => s.valor_calc_proporcional.getD 0)
    (fun r : VRow =>
      { r with composicao := r.valor_calc_proporcional.map (fun v => v / r.total_invest) })
    (fun r => rfl) (fun r => rfl)
  rw [hstage2]
  have hstage1 := filter_map_map
    (fun s : VRow => decide (group_key s = k))
    (fun s : VRow => s.valor_calc_proporcional.getD 0)
    (fun r : VRow =>
      { r with total_invest := (total_invest_of
          (compute_proportional_value (accumulate_columns_by_level tree (max_nivel tree))
            (max_nivel tree)) (group_key r)) })
    (fun r => rfl) (fun r => rfl)
  rw [hstage1]

/-- Helper: row-wise characterization of composition after enrichment:
composicao is the ratio of the proportional value to the row's
total_invest, and total_invest is the group-wise sum of proportional
values over the output. -/
theorem c6_row_char (tree : List VRow) :
    ∀ r ∈ enrich_values tree,
      r.composicao = r.valor_calc_proporcional.map (fun v => v / r.total_invest)
      ∧ r.total_invest
          = (((enrich_values tree).filter
                (fun s => group_key s = group_key r)).map
              (fun s => s.valor_calc_proporcional.getD 0)).sum := by
  intro r hr
  have hout := out_group_vcp tree (group_key r)
  simp only [enrich_values] at hr
  unfold compute_weighted_returns at hr
  obtain ⟨s4, hs4, hg⟩ := mem_foldl_of_step comp_view _
    (by
      intro acc i x hx
      obtain ⟨s, hs, rfl⟩ := List.mem_map.mp hx
      exact ⟨s, hs, by split <;> rfl⟩) _ _ r hr
  unfold assign_composicao at hs4
  obtain ⟨s3, hs3, rfl⟩ := List.mem_map.mp hs4
  unfold assign_total_invest at hs3
  obtain ⟨s2, hs2, rfl⟩ := List.mem_map.mp hs3
  have hcomp : group_key r = group_key s2
      ∧ r.valor_calc_proporcional = s2.valor_calc_proporcional
      ∧ r.total_invest
          = total_invest_of
              (compute_proportional_value
                (accumulate_columns_by_level tree (max_nivel tree))
                (max_nivel tree)) (group_key s2)
      ∧ r.composicao
          = s2.valor_calc_proporcional.map (fun v =>
              v / total_invest_of
                (compute_proportional_value
                  (accumulate_columns_by_level tree (max_nivel tree))
                  (max_nivel tree)) (group_key s2)) := by
    simpa [comp_view, group_key, Prod.ext_iff] using hg
  obtain ⟨hk, hv, ht, hc⟩ := hcomp
  constructor
  · rw [hc, hv, ht]
  · rw [hout, ht, hk]
    rfl

/-- C6: after enrich_values, every row's composicao is its proportional
value divided by its total_invest (the group-wise sum of proportional
values over (cnpb, CLCLI_CD, dtposicao), per c6_row_char), and in every
group in which all rows carry a proportional value and the group total
is non-zero, the compositions sum to exactly 1. -/
theorem c6_composition_shares_sum_to_one (tree : List VRow) :
    (∀ r ∈ enrich_values tree,
        r.composicao = r.valor_calc_proporcional.map (fun v => v / r.total_invest)
        ∧ r.total_invest
            = (((enrich_values tree).filter
                  (fun s => group_key s = group_key r)).map
                (fun s => s.valor_calc_proporcional.getD 0)).sum)
    ∧ ∀ k : String × String × String,
        ((enrich_values tree).filter (fun s => group_key s = k)).all
            (fun s => s.valor_calc_proporcional.isSome) = true →
        (((enrich_values tree).filter (fun s => group_key s = k)).map
            (fun s => s.valor_calc_proporcional.getD 0)).sum ≠ 0 →
        (((enrich_values tree).filter (fun s => group_key s = k)).map
            (fun s => s.composicao.getD 0)).sum = 1 := by
  refine ⟨c6_row_char tree, ?_⟩
  intro k hall hT
  have hmapeq :
      ((enrich_values tree).filter (fun s => group_key s = k)).map
          (fun s => s.composicao.getD 0)
        = ((enrich_values tree).filter (fun s => group_key s = k)).map
            (fun s => s.valor_calc_proporcional.getD 0
              / (((enrich_values tree).filter (fun s => group_key s = k)).map
                  (fun s => s.valor_calc_proporcional.getD 0)).sum) := by
    apply List.map_congr_left
    intro s hs
    have hmem : s ∈ enrich_values tree := List.mem_of_mem_filter hs
    have hkey : group_key s = k := by
      simpa using List.of_mem_filter hs
    obtain ⟨hc, ht⟩ := c6_row_char tree s hmem
    rw [hkey] at ht
    obtain ⟨v, hv⟩ := Option.isSome_iff_exists.mp
      (by simpa using List.all_eq_true.mp hall s hs)
    rw [hc, hv, ht]
    simp [hv]
  rw [hmapeq, list_sum_div, div_self hT]

/-- Witness for C6: the two-row 600/400 group is in the theorem scope and
its compositions sum to 1. -/
theorem c6_witness :
    (((enrich_values c6_tree).filter
        (fun s => group_key s = ("P", "S", "20240131"))).map
      (fun s => s.composicao.getD 0)).sum = 1 := by
  apply (c6_composition_shares_sum_to_one c6_tree).2 ("P", "S", "20240131")
  · simp [enrich_values, accumulate_columns_by_level, compute_proportional_value,
      assign_total_invest, assign_composicao, compute_weighted_returns, max_nivel,
      c6_tree, List.range_succ, total_invest_of, group_key, valor_col, rentab_col]
  · simp [enrich_values, accumulate_columns_by_level, compute_proportional_value,
      assign_total_invest, assign_composicao, compute_weighted_returns, max_nivel,
      c6_tree, List.range_succ, total_invest_of, group_key, valor_col, rentab_col]
    norm_num

end EnrichValues

namespace PlanoMecSac

/-- C7 (amended): for every adjustment row whose (plan, date) was found
in the authoritative series, the delta is authoritative minus tree and
the factor is authoritative divided by tree, and multiplying the tree
return by the factor reproduces the authoritative return exactly
whenever the tree-aggregated return is non-zero (the zero denominator is
unguarded in the source, as the spec notes). -/
theorem c7_adjustment_delta_factor_round_trip
    (tree : List TreeReturnRow) (mec : List MecSacRow) (dcad : List PlanoSacRow) :
    ∀ a ∈ (compute_plan_returns_adjustment tree mec dcad).2.2,
      ∀ v, a.RENTAB_DIA_PONDERADA_MEC_SAC = some v →
        a.contribution_ajuste_rentab
            = some (v - a.contribution_rentab_ponderada)
        ∧ a.contribution_ajuste_rentab_fator
            = some (v / a.contribution_rentab_ponderada)
        ∧ (a.contribution_rentab_ponderada ≠ 0 →
            a.contribution_rentab_ponderada
              * (v / a.contribution_rentab_ponderada) = v) := by
  intro a ha v hv
  simp only [compute_plan_returns_adjustment, List.mem_map] at ha
  obtain ⟨t, ht, rfl⟩ := ha
  dsimp only at hv ⊢
  obtain ⟨x, hx, hval⟩ := Option.map_eq_some'.mp hv
  rw [hx]
  simp only [Option.map_some']
  rw [hval]
  refine ⟨rfl, rfl, fun h0 => ?_⟩
  rw [mul_comm]
  exact div_mul_cancel₀ v h0

/-- Witness for C7: with tree return 0.0120 and authoritative return
0.0125 for one (plan, date), the adjustment row carries
delta = 0.0005 and factor = 25/24, and the round trip holds. -/
theorem c7_witness :
    ((compute_plan_returns_adjustment c7_tree c7_mec c7_dcad).2.2).headI.contribution_ajuste_rentab
        = some (1/2000)
    ∧ ((compute_plan_returns_adjustment c7_tree c7_mec c7_dcad).2.2).headI.contribution_ajuste_rentab_fator
        = some (25/24)
    ∧ (3/250 : ℚ) * ((1/80) / (3/250)) = 1/80 := by
  have heval : (compute_plan_returns_adjustment c7_tree c7_mec c7_dcad).2.2
      = [{ cnpb := "P1", dtposicao := "20240131",
           contribution_rentab_ponderada := 3/250,
           RENTAB_DIA_PONDERADA_MEC_SAC := some (1/80),
           contribution_ajuste_rentab := some ((1/80) - (3/250)),
           contribution_ajuste_rentab_fator := some ((1/80) / (3/250)) }] := by
    simp [compute_plan_returns_adjustment, mec_sac_returns_by_plan,
      tree_returns_by_plan, mec_sac_dcadplanosac, plan_group_keys, total_pl,
      in_plan_group, c7_tree, c7_mec, c7_dcad, List.find?, List.filter]
  have hmem : ((compute_plan_returns_adjustment c7_tree c7_mec c7_dcad).2.2).headI
      ∈ (compute_plan_returns_adjustment c7_tree c7_mec c7_dcad).2.2 := by
    simp [heval]
  have hv : ((compute_plan_returns_adjustment c7_tree c7_mec c7_dcad).2.2).headI.RENTAB_DIA_PONDERADA_MEC_SAC
      = some (1/80) := by
    simp [heval]
  obtain ⟨h1, h2, h3⟩ :=
    c7_adjustment_delta_factor_round_trip c7_tree c7_mec c7_dcad _ hmem (1/80) hv
  have hcrp : ((compute_plan_returns_adjustment c7_tree c7_mec c7_dcad).2.2).headI.contribution_rentab_ponderada
      = 3/250 := by
    simp [heval]
  refine ⟨?_, ?_, ?_⟩
  · rw [h1, hcrp]
    simp only [Option.some.injEq]
    norm_num
  · rw [h2, hcrp]
    simp only [Option.some.injEq]
    norm_num
  · have h0 : ((compute_plan_returns_adjustment c7_tree c7_mec c7_dcad).2.2).headI.contribution_rentab_ponderada
        ≠ 0 := by
      rw [hcrp]
      norm_num
    have hrt := h3 h0
    rw [hcrp] at hrt
    exact hrt

/-- Counterexample for C7 as stated: a (plan, date) pair present in both
series whose tree-aggregated return is zero.  The factor column is the
unguarded quotient authoritative / 0 and multiplying the tree return by
any factor gives 0, which cannot reproduce the non-zero authoritative
return: the round-trip law fails. -/
theorem c7_counterexample :
    ((compute_plan_returns_adjustment c7_zero_tree c7_mec c7_dcad).2.2).map
        (fun a => (a.contribution_rentab_ponderada,
                   a.RENTAB_DIA_PONDERADA_MEC_SAC,
                   a.contribution_ajuste_rentab_fator.map
                     (fun f => a.contribution_rentab_ponderada * f)))
      = [(0, some (1/80), some 0)]
    ∧ (0 : ℚ) ≠ 1/80 := by
  constructor
  · simp [compute_plan_returns_adjustment, mec_sac_returns_by_plan,
      tree_returns_by_plan, mec_sac_dcadplanosac, plan_group_keys, total_pl,
      in_plan_group, c7_zero_tree, c7_mec, c7_dcad, List.find?, List.filter]
  · norm_num

end PlanoMecSac

namespace Submassa

/-- Helper: flatMap with the singleton function is the identity. -/
theorem flatMap_pure {α : Type} (t : List α) : t.flatMap (fun x => [x]) = t := by
  induction t with
  | nil => rfl
  | cons x xs ih => simp [ih]

/-- Helper: flatMap of a function that is the singleton on every member
is the identity. -/
theorem flatMap_id_of_mem {α : Type} (f : α → List α) :
    ∀ (t : List α), (∀ x ∈ t, f x = [x]) → t.flatMap f = t := by
  intro t
  induction t with
  | nil => intro h; rfl
  | cons x xs ih =>
    intro h
    simp only [List.flatMap_cons, h x (List.mem_cons_self x xs)]
    rw [ih (fun y hy => h y (List.mem_cons_of_mem x hy))]
    rfl

/-- Helper: the table-level level loop is the concatenation of the
per-row pipelines. -/
theorem explode_foldl_eq_flatMap (port : List PortSubmassaRow) :
    ∀ (l : List ℕ) (t0 : List SubTreeRow),
      l.foldl (fun t i => explode_level port i t) t0
        = t0.flatMap (row_pipeline port l) := by
  intro l
  induction l with
  | nil =>
    intro t0
    show t0 = t0.flatMap (row_pipeline port [])
    rw [show row_pipeline port [] = fun r => [r] from funext (fun r => rfl),
      flatMap_pure]
  | cons i l ih =>
    intro t0
    rw [List.foldl_cons]
    show l.foldl (fun t i => explode_level port i t) (explode_level port i t0)
        = t0.flatMap (row_pipeline port (i :: l))
    rw [ih (explode_level port i t0)]
    show (t0.flatMap (explode_row port i)).flatMap (row_pipeline port l) = _
    rw [List.flatMap_assoc]
    congr 1
    funext r
    show (explode_row port i r).flatMap (row_pipeline port l)
        = row_pipeline port (i :: l) r
    have h1 : row_pipeline port (i :: l) r
        = l.foldl (fun acc j => acc.flatMap (explode_row port j))
            (explode_row port i r) := by
      unfold row_pipeline
      rw [List.foldl_cons]
      congr 1
      simp
    have h2 : l.foldl (fun acc j => acc.flatMap (explode_row port j))
          (explode_row port i r)
        = l.foldl (fun t j => explode_level port j t) (explode_row port i r) := rfl
    rw [h1, h2, ih (explode_row port i r)]

/-- Helper: overwriting the four maintained columns twice keeps only the
second write. -/
theorem assign_submassa_assign (r : SubTreeRow) (q p : PortSubmassaRow) :
    assign_submassa (assign_submassa r q) p = assign_submassa r p := rfl

/-- Helper: the merge keys are untouched by the overwrite, so the
matching mapping rows of an overwritten row are those of the original. -/
theorem matches_assign (port : List PortSubmassaRow) (r : SubTreeRow)
    (q : PortSubmassaRow) (i : ℕ) :
    submassa_matches port (assign_submassa r q) i = submassa_matches port r i := rfl

/-- A row reachable from r by the level passes: either r itself or r
with the four maintained columns overwritten from some mapping row. -/
def shape_of (r x : SubTreeRow) : Prop :=
  x = r ∨ ∃ p, x = assign_submassa r p

/-- Helper: every row of r's pipeline is r or an overwrite of r. -/
theorem shape_foldl (port : List PortSubmassaRow) (r : SubTreeRow) :
    ∀ (l : List ℕ) (acc : List SubTreeRow),
      (∀ x ∈ acc, shape_of r x) →
      ∀ y ∈ l.foldl (fun a i => a.flatMap (explode_row port i)) acc,
        shape_of r y := by
  intro l
  induction l with
  | nil => exact fun acc hacc y hy => hacc y hy
  | cons i l ih =>
    intro acc hacc y hy
    rw [List.foldl_cons] at hy
    refine ih (acc.flatMap (explode_row port i)) ?_ y hy
    intro x hx
    obtain ⟨s, hs, hxs⟩ := List.mem_flatMap.mp hx
    unfold explode_row at hxs
    by_cases hempty : (submassa_matches port s i).isEmpty
    · simp only [hempty, if_pos] at hxs
      rw [List.mem_singleton.mp hxs]
      exact hacc s hs
    · simp only [hempty, if_neg, Bool.false_eq_true, not_false_iff] at hxs
      obtain ⟨p, _, rfl⟩ := List.mem_map.mp hxs
      rcases hacc s hs with rfl | ⟨q, rfl⟩
      · exact Or.inr ⟨p, rfl⟩
      · exact Or.inr ⟨p, (assign_submassa_assign r q p).symm ▸ rfl⟩

/-- Helper: a level with no matching mapping rows passes every reachable
row through unchanged. -/
theorem step_empty (port : List PortSubmassaRow) (r : SubTreeRow) (i : ℕ)
    (hmi : submassa_matches port r i = [])
    (acc : List SubTreeRow) (hacc : ∀ x ∈ acc, shape_of r x) :
    acc.flatMap (explode_row port i) = acc := by
  apply flatMap_id_of_mem
  intro x hx
  have hmx : submassa_matches port x i = [] := by
    rcases hacc x hx with rfl | ⟨q, rfl⟩
    · exact hmi
    · rw [matches_assign]
      exact hmi
  unfold explode_row
  simp [hmx]

/-- Helper: a pipeline over levels that never match leaves [r]
unchanged. -/
theorem pipeline_all_empty (port : List PortSubmassaRow) (r : SubTreeRow) :
    ∀ (n : ℕ), (∀ i, i < n → submassa_matches port r i = []) →
      row_pipeline port (List.range n) r = [r] := by
  intro n
  induction n with
  | zero => intro _; rfl
  | succ n ih =>
    intro h
    unfold row_pipeline at ih ⊢
    rw [List.range_succ, List.foldl_append, ih (fun i hi => h i (by omega))]
    simp only [List.foldl_cons, List.foldl_nil]
    exact step_empty port r n (h n (by omega)) [r]
      (fun x hx => Or.inl (List.mem_singleton.mp hx))

/-- Helper: a matching level maps every reachable row to the overwrites
by its matching mapping rows. -/
theorem step_match (port : List PortSubmassaRow) (r : SubTreeRow) (i : ℕ)
    (hmi : submassa_matches port r i ≠ [])
    (acc : List SubTreeRow) (hacc : ∀ x ∈ acc, shape_of r x) :
    ∀ y ∈ acc.flatMap (explode_row port i),
      ∃ p ∈ submassa_matches port r i, y = assign_submassa r p := by
  intro y hy
  obtain ⟨s, hs, hys⟩ := List.mem_flatMap.mp hy
  have hms : submassa_matches port s i = submassa_matches port r i := by
    rcases hacc s hs with rfl | ⟨q, rfl⟩
    · rfl
    · rw [matches_assign]
  unfold explode_row at hys
  rw [hms] at hys
  simp only [List.isEmpty_iff, hmi, if_neg] at hys
  obtain ⟨p, hp, rfl⟩ := List.mem_map.mp hys
  rcases hacc s hs with rfl | ⟨q, rfl⟩
  · exact ⟨p, hp, rfl⟩
  · exact ⟨p, hp, (assign_submassa_assign r q p).symm⟩

end Submassa

namespace Submassa

/-- Helper: the values carried by a row of the pipeline come from the
last level (the deepest) whose matches are non-empty: every later level
is assumed empty, and every produced row is an overwrite by one of that
level's mapping entries. -/
theorem row_pipeline_last_match (port : List PortSubmassaRow)
    (r : SubTreeRow) (l : ℕ) :
    ∀ (m : ℕ), l ≤ m → submassa_matches port r l ≠ [] →
      (∀ i, l < i → i ≤ m → submassa_matches port r i = []) →
      ∀ y ∈ row_pipeline port (List.range (m + 1)) r,
        ∃ p ∈ submassa_matches port r l, y = assign_submassa r p := by
  intro m
  induction m with
  | zero =>
    intro hl hm _ y hy
    have hl0 : l = 0 := Nat.le_zero.mp hl
    subst hl0
    unfold row_pipeline at hy
    rw [show List.range 1 = [0] from rfl] at hy
    simp only [List.foldl_cons, List.foldl_nil] at hy
    exact step_match port r 0 hm [r]
      (fun x hx => Or.inl (List.mem_singleton.mp hx)) y hy
  | succ m ih =>
    intro hl hm hothers y hy
    unfold row_pipeline at hy
    rw [List.range_succ, List.foldl_append] at hy
    simp only [List.foldl_cons, List.foldl_nil] at hy
    have hshape : ∀ x ∈ (List.range (m + 1)).foldl
        (fun a i => a.flatMap (explode_row port i)) [r], shape_of r x :=
      shape_foldl port r _ [r] (fun x hx => Or.inl (List.mem_singleton.mp hx))
    by_cases hcase : l = m + 1
    · subst hcase
      exact step_match port r (m + 1) hm _ hshape y hy
    · have hlm : l ≤ m := by omega
      have hempty := hothers (m + 1) (by omega) (le_refl _)
      rw [step_empty port r (m + 1) hempty _ hshape] at hy
      exact ih hlm hm (fun i h1 h2 => hothers i h1 (by omega)) y hy

/-- Helper: a row matching at exactly one level fans out into exactly
one output row per matching mapping entry of that level, carrying that
entry's values. -/
theorem row_pipeline_single_match (port : List PortSubmassaRow)
    (r : SubTreeRow) (l : ℕ) :
    ∀ (m : ℕ), l ≤ m → submassa_matches port r l ≠ [] →
      (∀ i, i ≤ m → i ≠ l → submassa_matches port r i = []) →
      row_pipeline port (List.range (m + 1)) r
        = (submassa_matches port r l).map (assign_submassa r) := by
  intro m
  induction m with
  | zero =>
    intro hl hm _
    have hl0 : l = 0 := Nat.le_zero.mp hl
    subst hl0
    unfold row_pipeline
    rw [show List.range 1 = [0] from rfl]
    simp only [List.foldl_cons, List.foldl_nil]
    show [r].flatMap (explode_row port 0) = _
    simp only [List.flatMap_cons, List.flatMap_nil, List.append_nil]
    unfold explode_row
    simp [List.isEmpty_iff, hm]
  | succ m ih =>
    intro hl hm hothers
    unfold row_pipeline
    rw [List.range_succ, List.foldl_append]
    simp only [List.foldl_cons, List.foldl_nil]
    by_cases hcase : l = m + 1
    · subst hcase
      have hprev := pipeline_all_empty port r (m + 1)
        (fun i hi => hothers i (by omega) (by omega))
      unfold row_pipeline at hprev
      rw [hprev]
      show [r].flatMap (explode_row port (m + 1)) = _
      simp only [List.flatMap_cons, List.flatMap_nil, List.append_nil]
      unfold explode_row
      simp [List.isEmpty_iff, hm]
    · have hlm : l ≤ m := by omega
      have hprev := ih hlm hm (fun i h1 h2 => hothers i (by omega) h2)
      unfold row_pipeline at hprev
      rw [hprev]
      apply step_empty port r (m + 1) (hothers (m + 1) (le_refl _) (by omega))
      intro x hx
      obtain ⟨p, hp, rfl⟩ := List.mem_map.mp hx
      exact Or.inr ⟨p, rfl⟩

/-- Helper: the Splitter on a non-empty table is the per-row pipeline
concatenated, followed by the fillna and default-bucket passes. -/
theorem explode_decomposition (tree : List SubTreeRow)
    (port : List PortSubmassaRow) (h : tree ≠ []) :
    explode_horizontal_tree_submassa tree port
      = fill_bsps (fill_pct ((tree.map init_row).flatMap
          (row_pipeline port (List.range (sub_max_nivel tree + 1))))) := by
  unfold explode_horizontal_tree_submassa
  rw [if_neg (by simp [List.isEmpty_iff, h]), explode_foldl_eq_flatMap]

end Submassa

namespace Submassa

/-- C3 (amended): the Splitter is the concatenation of per-row pipelines
(first conjunct), and within a row's pipeline the LAST (deepest) level
whose resolved instrument id matches the mapping determines the row's
sub-group assignment and proration factor: every output row descending
from the row is an overwrite by a mapping entry of that deepest matching
level, because each deeper match overwrites the shallower ones. -/
theorem c3_splitter_deepest_match_wins :
    (∀ (tree : List SubTreeRow) (port : List PortSubmassaRow), tree ≠ [] →
        explode_horizontal_tree_submassa tree port
          = fill_bsps (fill_pct ((tree.map init_row).flatMap
              (row_pipeline port (List.range (sub_max_nivel tree + 1))))))
    ∧ ∀ (port : List PortSubmassaRow) (r : SubTreeRow) (l m : ℕ),
        l ≤ m → submassa_matches port r l ≠ [] →
        (∀ i, l < i → i ≤ m → submassa_matches port r i = []) →
        ∀ y ∈ row_pipeline port (List.range (m + 1)) r,
          ∃ p ∈ submassa_matches port r l, y = assign_submassa r p :=
  ⟨explode_decomposition,
   fun port r l m h1 h2 h3 => row_pipeline_last_match port r l m h1 h2 h3⟩

/-- Witness for C3: on the two-level row, every pipeline output row (here
its head) is an overwrite by a level-1 mapping entry. -/
theorem c3_witness :
    (row_pipeline c3_port (List.range 2) (init_row c3_row)).headI
      ∈ (submassa_matches c3_port (init_row c3_row) 1).map
          (assign_submassa (init_row c3_row)) := by
  have hne : row_pipeline c3_port (List.range 2) (init_row c3_row) ≠ [] := by
    decide
  obtain ⟨p, hp, he⟩ := c3_splitter_deepest_match_wins.2 c3_port (init_row c3_row)
    1 1 (le_refl 1) (by decide) (fun i h1 h2 => absurd (lt_of_lt_of_le h1 h2) (lt_irrefl 1))
    _ (EnrichValues.headI_mem_of_ne hne)
  exact List.mem_map.mpr ⟨p, hp, he.symm⟩

/-- Counterexample for C3 as stated: the row matches the mapping at
level 0 (sub-group S1, the shallowest match), yet the Splitter's output
carries the level-1 values (sub-group S2, factor 0.5) - the shallowest
matching level does not determine the assignment. -/
theorem c3_counterexample :
    (explode_horizontal_tree_submassa c3_tree c3_port).map
        (fun o => (o.COD_SUBMASSA, o.pct_submassa_isin_cnpb))
      = [(some "S2", some (1/2))]
    ∧ submassa_matches c3_port (init_row c3_row) 0 = [c3_p0]
    ∧ c3_p0.COD_SUBMASSA = some "S1"
    ∧ (some "S1" : Option String) ≠ some "S2" := by
  refine ⟨?_, ?_, rfl, by decide⟩
  · simp [explode_horizontal_tree_submassa, c3_tree, c3_port, c3_row, c3_p0,
      c3_p1, init_row, explode_level, explode_row, submassa_matches, isin_col,
      sub_max_nivel, assign_submassa, fill_pct, fill_bsps, List.range_succ]
  · simp [submassa_matches, c3_port, c3_row, c3_p0, c3_p1, init_row, isin_col]

end Submassa

namespace Submassa

/-- C8 (amended): a row matching the mapping at exactly one level yields
one output row per matching (sub-group, share) entry of that level,
carrying that entry's proration factor; a row matching at no level
yields exactly one default-bucket row (factor 1.0, id '1', name 'BSPS');
and on the concrete 60/40 example the Splitter emits two rows with
factors 3/5 and 2/5, whose proportional values are 600 and 400. -/
theorem c8_splitter_rows_and_default_bucket :
    (∀ (port : List PortSubmassaRow) (r : SubTreeRow) (l m : ℕ),
        l ≤ m → submassa_matches port r l ≠ [] →
        (∀ i, i ≤ m → i ≠ l → submassa_matches port r i = []) →
        row_pipeline port (List.range (m + 1)) r
          = (submassa_matches port r l).map (assign_submassa r))
    ∧ (∀ (port : List PortSubmassaRow) (r : SubTreeRow),
        (∀ i, i ≤ sub_max_nivel [r] →
          submassa_matches port (init_row r) i = []) →
        explode_horizontal_tree_submassa [r] port
          = [{ init_row r with
               COD_SUBMASSA := some "1", SUBMASSA := some "BSPS" }])
    ∧ (explode_horizontal_tree_submassa c8_tree c8_port).map
        (fun o => (o.COD_SUBMASSA, o.SUBMASSA, o.pct_submassa_isin_cnpb,
          o.valor_calc * (o.pct_submassa_isin_cnpb.getD 1)))
      = [(some "S1", some "SUB1", some (3/5), 600),
         (some "S2", some "SUB2", some (2/5), 400)] := by
  refine ⟨fun port r l m h1 h2 h3 =>
      row_pipeline_single_match port r l m h1 h2 h3, ?_, ?_⟩
  · intro port r hall
    rw [explode_decomposition [r] port (by simp)]
    have hpipe : row_pipeline port
        (List.range (sub_max_nivel [r] + 1)) (init_row r) = [init_row r] := by
      apply pipeline_all_empty
      intro i hi
      exact hall i (by omega)
    simp only [List.map_cons, List.map_nil, List.flatMap_cons,
      List.flatMap_nil, List.append_nil]
    rw [hpipe]
    show fill_bsps (fill_pct [init_row r]) = _
    unfold fill_pct fill_bsps
    simp [init_row]
  · simp [explode_horizontal_tree_submassa, c8_tree, c8_row, c8_port,
      c8_port_src, compute_composition_portfolio_submassa, total_submassa,
      select_cols, init_row, explode_level, explode_row, submassa_matches,
      isin_col, sub_max_nivel, assign_submassa, fill_pct, fill_bsps,
      List.range_succ]
    norm_num

/-- Witness for C8: the 60/40 row is in the scope of the one-level part,
and the unmatched row gets exactly the default-bucket row. -/
theorem c8_witness :
    row_pipeline c8_port (List.range 1) (init_row c8_row)
        = (submassa_matches c8_port (init_row c8_row) 0).map
            (assign_submassa (init_row c8_row))
    ∧ explode_horizontal_tree_submassa c8_unmatched_tree c8_port
        = [{ init_row c8_unmatched_row with
             COD_SUBMASSA := some "1", SUBMASSA := some "BSPS" }] := by
  constructor
  · exact c8_splitter_rows_and_default_bucket.1 c8_port (init_row c8_row) 0 0
      (le_refl 0) (by decide)
      (fun i h1 h2 => absurd (Nat.le_zero.mp h1) h2)
  · exact c8_splitter_rows_and_default_bucket.2.1 c8_port c8_unmatched_row
      (by
        intro i hi
        have h0 : i = 0 := Nat.le_zero.mp hi
        subst h0
        decide)

/-- Counterexample for C8 as stated: a row with three matching mapping
entries in total (one at level 0, two at level 1) produces two output
rows, not one per matching entry, and both carry the level-1
sub-groups. -/
theorem c8_counterexample :
    (explode_horizontal_tree_submassa c8x_tree c8x_port).length = 2
    ∧ (submassa_matches c8x_port (init_row c8x_row) 0).length
        + (submassa_matches c8x_port (init_row c8x_row) 1).length = 3
    ∧ (explode_horizontal_tree_submassa c8x_tree c8x_port).map
        (fun o => o.COD_SUBMASSA) = [some "S2", some "S3"] := by
  exact ⟨by decide, by decide, by decide⟩

end Submassa

namespace Builder

/-- Helper: a missing reference matches no fund row. -/
theorem fund_matches_of_ref_none (funds : List FundRowB) (r : TreeRowB)
    (deep : ℕ) (h : ref_at r deep = none) : fund_matches funds r deep = [] := by
  unfold fund_matches
  apply List.filter_eq_nil_iff.mpr
  intro f hf
  simp [h]

/-- Helper: a present reference at a positive depth means the row has at
least that many resolved level groups. -/
theorem levels_ge_of_ref_some (r : TreeRowB) (deep : ℕ) (hd : deep ≠ 0)
    (h : ref_at r deep ≠ none) : deep ≤ r.levels.length := by
  unfold ref_at at h
  rw [if_neg hd] at h
  cases hx : r.levels[deep - 1]? with
  | none => rw [hx] at h; simp at h
  | some f =>
    have hlt : deep - 1 < r.levels.length := by
      by_contra hge
      rw [List.getElem?_eq_none (by omega)] at hx
      exact Option.noConfusion hx
    omega

/-- Helper: a row whose reference column at the current depth is missing
and whose resolved levels do not exceed the depth survives the whole
recursion unchanged. -/
theorem build_horizontal_stalled (funds : List FundRowB) :
    ∀ (fuel deep : ℕ) (rows : List TreeRowB) (r : TreeRowB), r ∈ rows →
      ref_at r deep = none → r.levels.length ≤ deep →
      r ∈ build_tree_horizontal funds fuel deep rows := by
  intro fuel
  induction fuel with
  | zero => intro deep rows r hr _ _; exact hr
  | succ fuel ih =>
    intro deep rows r hr href hlen
    unfold build_tree_horizontal
    by_cases hall : rows.all (fun r => (ref_at r deep).isNone) = true
    · rw [if_pos hall]; exact hr
    · rw [if_neg hall]
      have hnext : ref_at r (deep + 1) = none := by
        unfold ref_at
        rw [if_neg (Nat.succ_ne_zero deep),
          List.getElem?_eq_none (by omega)]
        rfl
      refine ih (deep + 1) _ r ?_ hnext (by omega)
      refine List.mem_flatMap.mpr ⟨r, hr, ?_⟩
      unfold expand_row
      rw [fund_matches_of_ref_none funds r deep href]
      exact List.mem_singleton.mpr rfl

/-- Helper: a row whose reference resolves to no fund row for its date
survives the whole recursion unchanged (the dangling-reference case). -/
theorem build_horizontal_dangling (funds : List FundRowB) :
    ∀ (fuel deep : ℕ) (rows : List TreeRowB) (r : TreeRowB), r ∈ rows →
      fund_matches funds r deep = [] → r.levels.length ≤ deep →
      r ∈ build_tree_horizontal funds fuel deep rows := by
  intro fuel deep rows r hr hm hlen
  cases fuel with
  | zero => exact hr
  | succ fuel =>
    unfold build_tree_horizontal
    by_cases hall : rows.all (fun r => (ref_at r deep).isNone) = true
    · rw [if_pos hall]; exact hr
    · rw [if_neg hall]
      have hnext : ref_at r (deep + 1) = none := by
        unfold ref_at
        rw [if_neg (Nat.succ_ne_zero deep),
          List.getElem?_eq_none (by omega)]
        rfl
      refine build_horizontal_stalled funds fuel (deep + 1) _ r ?_ hnext (by omega)
      refine List.mem_flatMap.mpr ⟨r, hr, ?_⟩
      unfold expand_row
      rw [hm]
      exact List.mem_singleton.mpr rfl

/-- Helper: nivel equals the number of resolved level groups, as an
invariant of the recursion. -/
theorem build_horizontal_nivel (funds : List FundRowB) :
    ∀ (fuel deep : ℕ) (rows : List TreeRowB),
      (∀ r ∈ rows, r.nivel = r.levels.length ∧ r.levels.length ≤ deep) →
      ∀ r ∈ build_tree_horizontal funds fuel deep rows,
        r.nivel = r.levels.length := by
  intro fuel
  induction fuel with
  | zero => intro deep rows h r hr; exact (h r hr).1
  | succ fuel ih =>
    intro deep rows h r hr
    unfold build_tree_horizontal at hr
    by_cases hall : rows.all (fun r => (ref_at r deep).isNone) = true
    · rw [if_pos hall] at hr; exact (h r hr).1
    · rw [if_neg hall] at hr
      refine ih (deep + 1) _ ?_ r hr
      intro s hs
      obtain ⟨x, hx, hxs⟩ := List.mem_flatMap.mp hs
      unfold expand_row at hxs
      by_cases hempty : (fund_matches funds x deep).isEmpty
      · simp only [hempty, if_pos] at hxs
        rw [List.mem_singleton.mp hxs]
        exact ⟨(h x hx).1, by have := (h x hx).2; omega⟩
      · simp only [hempty, Bool.false_eq_true, if_neg, not_false_iff] at hxs
        obtain ⟨f, _, rfl⟩ := List.mem_map.mp hxs
        have hne : fund_matches funds x deep ≠ [] := by
          intro hnil
          rw [hnil] at hempty
          exact hempty rfl
        have href : ref_at x deep ≠ none := by
          intro hnone
          exact hne (fund_matches_of_ref_none funds x deep hnone)
        have hlen : x.levels.length = deep := by
          rcases Nat.eq_zero_or_pos deep with hz | hp
          · subst hz
            have := (h x hx).2
            omega
          · have h1 := levels_ge_of_ref_some x deep (by omega) href
            have h2 := (h x hx).2
            omega
        refine ⟨?_, ?_⟩
        · show deep + 1 = (x.levels ++ [f]).length
          simp [List.length_append, hlen]
        · show (x.levels ++ [f]).length ≤ deep + 1
          simp [List.length_append, hlen]

/-- C9: rows start at level 0; after any expansion every row's nivel
equals the number of fund-hops actually resolved (the number of joined
level groups); a row with no fund reference remains a leaf at level 0 in
the output; and a row whose reference resolves to no fund row for its
date keeps its prior values, stops expanding and is never an error. -/
theorem c9_nivel_counts_resolved_hops :
    (∀ (funds : List FundRowB) (ports : List PortRowB) (fuel : ℕ),
        ∀ r ∈ build_tree funds ports fuel, r.nivel = r.levels.length)
    ∧ (∀ (funds : List FundRowB) (ports : List PortRowB) (fuel : ℕ)
          (p : PortRowB), p ∈ ports → p.flag_rateio = 0 → p.valor_serie = 0 →
        p.cnpjfundo = none →
        port_to_tree_row p ∈ build_tree funds ports fuel)
    ∧ (∀ (funds : List FundRowB) (ports : List PortRowB) (fuel : ℕ)
          (p : PortRowB) (c : String), p ∈ ports → p.flag_rateio = 0 →
        p.valor_serie = 0 → p.cnpjfundo = some c →
        (∀ f ∈ funds, f.valor_serie = 0 →
          ¬(f.cnpj = c ∧ f.dtposicao = p.dtposicao)) →
        port_to_tree_row p ∈ build_tree funds ports fuel) := by
  refine ⟨?_, ?_, ?_⟩
  · intro funds ports fuel r hr
    refine build_horizontal_nivel _ fuel 0 _ ?_ r hr
    intro s hs
    obtain ⟨p, _, rfl⟩ := List.mem_map.mp hs
    exact ⟨rfl, le_refl 0⟩
  · intro funds ports fuel p hp hflag hvalor href
    refine build_horizontal_stalled _ fuel 0 _ (port_to_tree_row p) ?_ ?_ ?_
    · exact List.mem_map.mpr ⟨p, List.mem_filter.mpr
        ⟨hp, by simp [hflag, hvalor]⟩, rfl⟩
    · show (port_to_tree_row p).cnpjfundo = none
      exact href
    · exact le_refl 0
  · intro funds ports fuel p c hp hflag hvalor href hnof
    refine build_horizontal_dangling _ fuel 0 _ (port_to_tree_row p) ?_ ?_ ?_
    · exact List.mem_map.mpr ⟨p, List.mem_filter.mpr
        ⟨hp, by simp [hflag, hvalor]⟩, rfl⟩
    · unfold fund_matches
      apply List.filter_eq_nil_iff.mpr
      intro f hf
      have hmem := List.mem_filter.mp hf
      have hvs : f.valor_serie = 0 := by
        have := hmem.2
        simpa using this
      have hnf := hnof f hmem.1 hvs
      show ¬(decide (some f.cnpj = ref_at (port_to_tree_row p) 0
        ∧ f.dtposicao = (port_to_tree_row p).dtposicao) = true)
      simp only [decide_eq_true_eq]
      intro hc
      refine hnf ⟨?_, hc.2⟩
      have h1 := hc.1
      rw [show ref_at (port_to_tree_row p) 0 = some c from href] at h1
      exact Option.some_injective _ h1
    · exact le_refl 0

/-- Witness for C9: the leaf and dangling positions are both present
unchanged in the built tree, and the invariant instantiates on the leaf
row. -/
theorem c9_witness :
    (port_to_tree_row c9_leaf_port).nivel
        = (port_to_tree_row c9_leaf_port).levels.length
    ∧ port_to_tree_row c9_leaf_port ∈ build_tree c9_funds c9_ports 3
    ∧ port_to_tree_row c9_dangling_port ∈ build_tree c9_funds c9_ports 3 := by
  have h2 := c9_nivel_counts_resolved_hops.2.1 c9_funds c9_ports 3 c9_leaf_port
    (List.mem_cons_self _ _) rfl rfl rfl
  have h3 := c9_nivel_counts_resolved_hops.2.2 c9_funds c9_ports 3
    c9_dangling_port "DANG"
    (List.mem_cons_of_mem _ (List.mem_cons_self _ _)) rfl rfl rfl
    (by
      intro f hf hvs
      have : f = c9_fund := List.mem_singleton.mp hf
      subst this
      intro hc
      exact absurd hc.1 (by decide))
  exact ⟨c9_nivel_counts_resolved_hops.1 c9_funds c9_ports 3 _ h2, h2, h3⟩

end Builder

namespace Gov

/-- Helper: length of the indexed map. -/
theorem map_with_index_length {α β : Type} (f : ℕ → α → β) :
    ∀ (l : List α) (s : ℕ), (map_with_index f s l).length = l.length := by
  intro l
  induction l with
  | nil => intro s; rfl
  | cons x xs ih => intro s; simp [map_with_index, ih]

/-- Helper: elements of the indexed map. -/
theorem map_with_index_getElem {α β : Type} (f : ℕ → α → β) :
    ∀ (l : List α) (s j : ℕ) (h1 : j < (map_with_index f s l).length)
      (h2 : j < l.length), (map_with_index f s l)[j] = f (s + j) l[j] := by
  intro l
  induction l with
  | nil => intro s j h1 h2; exact absurd h2 (Nat.not_lt_zero j)
  | cons x xs ih =>
    intro s j h1 h2
    cases j with
    | zero => simp [map_with_index]
    | succ j =>
      have h1m : j < (map_with_index f (s + 1) xs).length := by
        rw [map_with_index_length]
        rw [map_with_index_length] at h1
        simpa using Nat.lt_of_succ_lt_succ h1
      have h2m : j < xs.length := Nat.lt_of_succ_lt_succ h2
      show (map_with_index f (s + 1) xs)[j] = f (s + (j + 1)) (x :: xs)[j + 1]
      rw [ih (s + 1) j h1m h2m, List.getElem_cons_succ]
      congr 1
      omega

/-- Helper: the level scan only writes output columns, so the grouping
and level columns of the closed form agree with the input row. -/
theorem scan_row_static (ks : List String) (tree : List GovRow) (k j : ℕ) :
    (scan_row ks tree k j).codcart = (tree.getD j default).codcart
    ∧ (scan_row ks tree k j).dtposicao = (tree.getD j default).dtposicao
    ∧ (scan_row ks tree k j).cnpb = (tree.getD j default).cnpb
    ∧ (scan_row ks tree k j).levels = (tree.getD j default).levels := by
  unfold scan_row
  dsimp only
  split
  · exact ⟨rfl, rfl, rfl, rfl⟩
  · split
    · exact ⟨rfl, rfl, rfl, rfl⟩
    · exact ⟨rfl, rfl, rfl, rfl⟩

/-- Helper: the duplicated-subset test only reads the grouping and level
columns of its first argument. -/
theorem same_combo_congr_left (a b x : GovRow) (i : ℕ)
    (h1 : a.codcart = b.codcart) (h2 : a.dtposicao = b.dtposicao)
    (h3 : a.cnpb = b.cnpb) (h4 : a.levels = b.levels) :
    same_combo a x i ↔ same_combo b x i := by
  unfold same_combo level_cnpj level_data
  rw [h1, h2, h3, h4]

/-- Helper: the duplicated-subset test only reads the grouping and level
columns of its second argument. -/
theorem same_combo_congr_right (x a b : GovRow) (i : ℕ)
    (h1 : a.codcart = b.codcart) (h2 : a.dtposicao = b.dtposicao)
    (h3 : a.cnpb = b.cnpb) (h4 : a.levels = b.levels) :
    same_combo x a i ↔ same_combo x b i := by
  unfold same_combo level_cnpj level_data
  rw [h1, h2, h3, h4]

/-- Helper: a prefix of a list as a map over indices. -/
theorem take_eq_map_range {α : Type} [Inhabited α] (l : List α) (j : ℕ)
    (h : j ≤ l.length) :
    l.take j = (List.range j).map (fun s => l.getD s default) := by
  apply List.ext_getElem
  · simp only [List.length_take, List.length_map, List.length_range]
    omega
  · intro m h1 h2
    have hm : m < l.length := by
      simp only [List.length_take] at h1
      omega
    simp only [List.getElem_take, List.getElem_map, List.getElem_range]
    rw [List.getD_eq_getElem]

/-- Helper: a found shallowest governed level is indeed governed. -/
theorem in_set_of_first_gov (ks : List String) (r : GovRow) :
    ∀ (n i : ℕ), first_gov_level ks r n = some i →
      in_set ks (level_cnpj r i) = true := by
  intro n
  induction n with
  | zero => intro i h; exact absurd h (by simp [first_gov_level])
  | succ n ih =>
    intro i h
    unfold first_gov_level at h
    cases hrec : first_gov_level ks r n with
    | some i2 =>
      rw [hrec] at h
      have : i2 = i := by injection h
      subst this
      exact ih i2 hrec
    | none =>
      rw [hrec] at h
      by_cases hin : in_set ks (level_cnpj r n) = true
      · rw [if_pos hin] at h
        have : n = i := by injection h
        subst this
        exact hin
      · rw [if_neg hin] at h
        exact absurd h (by simp)

/-- Helper: when no level below n is governed, the scan finds nothing. -/
theorem first_gov_none_of_all (ks : List String) (r : GovRow) :
    ∀ (n : ℕ), (∀ i, i < n → in_set ks (level_cnpj r i) = false) →
      first_gov_level ks r n = none := by
  intro n
  induction n with
  | zero => intro _; rfl
  | succ n ih =>
    intro h
    unfold first_gov_level
    rw [ih (fun i hi => h i (by omega)), h n (by omega)]
    rfl

/-- Helper: when the scan finds nothing, no level below n is governed. -/
theorem all_false_of_first_gov_none (ks : List String) (r : GovRow) :
    ∀ (n : ℕ), first_gov_level ks r n = none →
      ∀ i, i < n → in_set ks (level_cnpj r i) = false := by
  intro n
  induction n with
  | zero => intro _ i hi; omega
  | succ n ih =>
    intro h i hi
    unfold first_gov_level at h
    cases hrec : first_gov_level ks r n with
    | some i2 => rw [hrec] at h; exact absurd h (by simp)
    | none =>
      rw [hrec] at h
      by_cases hin : in_set ks (level_cnpj r n) = true
      · rw [if_pos hin] at h
        exact absurd h (by simp)
      · rcases Nat.lt_succ_iff_lt_or_eq.mp hi with hlt | rfl
        · exact ih hrec i hlt
        · exact Bool.not_eq_true _ ▸ hin

/-- Helper: the shallowest governed level is minimal: every strictly
shallower level is ungoverned. -/
theorem first_gov_level_min (ks : List String) (r : GovRow) :
    ∀ (n i : ℕ), first_gov_level ks r n = some i →
      i < n ∧ in_set ks (level_cnpj r i) = true
        ∧ ∀ m, m < i → in_set ks (level_cnpj r m) = false := by
  intro n
  induction n with
  | zero => intro i h; exact absurd h (by simp [first_gov_level])
  | succ n ih =>
    intro i h
    unfold first_gov_level at h
    cases hrec : first_gov_level ks r n with
    | some i2 =>
      rw [hrec] at h
      have : i2 = i := by injection h
      subst this
      obtain ⟨h1, h2, h3⟩ := ih i2 hrec
      exact ⟨by omega, h2, h3⟩
    | none =>
      rw [hrec] at h
      by_cases hin : in_set ks (level_cnpj r n) = true
      · rw [if_pos hin] at h
        have : n = i := by injection h
        subst this
        exact ⟨by omega, hin, fun m hm => all_false_of_first_gov_none ks r n hrec m hm⟩
      · rw [if_neg hin] at h
        exact absurd h (by simp)

end Gov

namespace Gov

/-- Helper: with a governed level found below k, the scan has recorded
its id as the match candidate. -/
theorem scan_row_match_of_some (ks : List String) (tree : List GovRow)
    (k j i : ℕ) (hfg : first_gov_level ks (tree.getD j default) k = some i) :
    (scan_row ks tree k j).contribution_match
      = level_cnpj (tree.getD j default) i := by
  unfold scan_row
  dsimp only
  rw [hfg]
  dsimp only
  split <;> rfl

/-- Helper: with no governed level below k, the scan leaves the row
reset. -/
theorem scan_row_of_none (ks : List String) (tree : List GovRow) (k j : ℕ)
    (hfg : first_gov_level ks (tree.getD j default) k = none) :
    scan_row ks tree k j = reset_row (tree.getD j default) := by
  unfold scan_row
  dsimp only
  rw [hfg]

/-- Helper: with a governed level found below k, the scan row is the
candidate/carrier form at that level. -/
theorem scan_row_of_some (ks : List String) (tree : List GovRow)
    (k j i : ℕ) (hfg : first_gov_level ks (tree.getD j default) k = some i) :
    scan_row ks tree k j
      = (if first_in_group tree i j (tree.getD j default) then
          fill_contribution
            { reset_row (tree.getD j default) with
              contribution_match := level_cnpj (tree.getD j default) i,
              KEY_ESTRUTURA_GERENCIAL := level_cnpj (tree.getD j default) i }
            (level_data (tree.getD j default) i).valor_calc
            (level_data (tree.getD j default) i).rentab
            (level_data (tree.getD j default) i).nome_ativo
            (level_data (tree.getD j default) i).tipo
        else
          { reset_row (tree.getD j default) with
            contribution_match := level_cnpj (tree.getD j default) i }) := by
  unfold scan_row
  dsimp only
  rw [hfg]

/-- Helper: resetting the output columns does not change the level
columns. -/
theorem level_cnpj_reset (r : GovRow) (i : ℕ) :
    level_cnpj (reset_row r) i = level_cnpj r i := rfl

/-- Helper: resetting the output columns does not change the level
groups. -/
theorem level_data_reset (r : GovRow) (i : ℕ) :
    level_data (reset_row r) i = level_data r i := rfl

/-- Helper: all over a mapped list, with the function inlined. -/
theorem all_map_fun {α β : Type} (f : α → β) (p : β → Bool) :
    ∀ (l : List α), (l.map f).all p = l.all (fun x => p (f x)) := by
  intro l
  induction l with
  | nil => rfl
  | cons x xs ih => simp [ih]

/-- Helper: the duplicated test of a pass over the closed-form table
agrees with the test over the input table. -/
theorem first_in_group_scan (ks : List String) (tree : List GovRow)
    (k i j : ℕ) (hj : j ≤ tree.length) :
    first_in_group ((List.range tree.length).map (scan_row ks tree k)) i j
        (scan_row ks tree k j)
      = first_in_group tree i j (tree.getD j default) := by
  unfold first_in_group
  rw [← List.map_take, List.take_range, Nat.min_eq_left hj,
    take_eq_map_range tree j hj, all_map_fun, all_map_fun]
  congr 1
  funext s
  have hstat_s := scan_row_static ks tree k s
  have hstat_j := scan_row_static ks tree k j
  have e1 : same_combo (scan_row ks tree k s) (scan_row ks tree k j) i
      ↔ same_combo (tree.getD s default) (scan_row ks tree k j) i :=
    same_combo_congr_left _ _ _ i hstat_s.1 hstat_s.2.1 hstat_s.2.2.1
      hstat_s.2.2.2
  have e2 : same_combo (tree.getD s default) (scan_row ks tree k j) i
      ↔ same_combo (tree.getD s default) (tree.getD j default) i :=
    same_combo_congr_right _ _ _ i hstat_j.1 hstat_j.2.1 hstat_j.2.2.1
      hstat_j.2.2.2
  rw [decide_eq_decide.mpr (e1.trans e2)]

/-- Helper: the level loop of assign_estrutura_gerencial_key computes
the closed form scan_row at every index: the shallowest governed level
becomes the candidate, and the first row of each (group, level id)
combination in table order becomes the carrier. -/
theorem level_fold_char (ks : List String) (tree : List GovRow) :
    ∀ (k : ℕ), (List.range k).foldl (level_pass ks) (tree.map reset_row)
      = (List.range tree.length).map (fun j => scan_row ks tree k j) := by
  intro k
  induction k with
  | zero =>
    apply List.ext_getElem
    · simp
    · intro j h1 h2
      have h1t : j < tree.length := by simpa using h2
      simp only [List.range_zero, List.foldl_nil, List.getElem_map,
        List.getElem_range]
      rw [show scan_row ks tree 0 j = reset_row (tree.getD j default) from
        scan_row_of_none ks tree 0 j rfl]
      congr 1
      exact (List.getD_eq_getElem tree default h1t).symm
  | succ k ih =>
    rw [List.range_succ, List.foldl_append, List.foldl_cons, List.foldl_nil, ih]
    apply List.ext_getElem
    · unfold level_pass
      rw [map_with_index_length]
      simp
    · intro j h1 h2
      unfold level_pass at h1 ⊢
      have hjlen : j < tree.length := by
        rw [map_with_index_length] at h1
        simpa using h1
      have hmap : j < ((List.range tree.length).map
          (fun j => scan_row ks tree k j)).length := by
        simpa using hjlen
      rw [map_with_index_getElem _ _ 0 j h1 hmap]
      simp only [List.getElem_map, List.getElem_range, Nat.zero_add]
      cases hfg : first_gov_level ks (tree.getD j default) k with
      | some i =>
        have hmatch := scan_row_match_of_some ks tree k j i hfg
        have hin := in_set_of_first_gov ks (tree.getD j default) k i hfg
        have hsome : (level_cnpj (tree.getD j default) i).isNone = false := by
          cases hcn : level_cnpj (tree.getD j default) i with
          | none => rw [hcn] at hin; exact absurd hin (by simp [in_set])
          | some v => rfl
        have hmask : gov_mask ks k (scan_row ks tree k j) = false := by
          unfold gov_mask
          rw [hmatch, hsome]
          simp
        have hfg2 : first_gov_level ks (tree.getD j default) (k + 1) = some i := by
          unfold first_gov_level
          rw [hfg]
        have hsame : scan_row ks tree (k + 1) j = scan_row ks tree k j := by
          rw [scan_row_of_some ks tree (k + 1) j i hfg2,
            scan_row_of_some ks tree k j i hfg]
        rw [hsame]
        simp [hmask]
      | none =>
        have hx := scan_row_of_none ks tree k j hfg
        by_cases hin : in_set ks (level_cnpj (tree.getD j default) k) = true
        · have hfg2 : first_gov_level ks (tree.getD j default) (k + 1) = some k := by
            unfold first_gov_level
            rw [hfg, if_pos hin]
          have hmask : gov_mask ks k (reset_row (tree.getD j default)) = true := by
            unfold gov_mask
            show (true && in_set ks (level_cnpj (tree.getD j default) k) && true) = true
            rw [hin]
            rfl
          have hfig := first_in_group_scan ks tree k k j (le_of_lt hjlen)
          rw [hx] at hfig
          rw [scan_row_of_some ks tree (k + 1) j k hfg2, hx]
          simp only [hmask, Bool.true_and, hfig, level_cnpj_reset,
            level_data_reset]
          split
          · rfl
          · rfl
        · have hfg2 : first_gov_level ks (tree.getD j default) (k + 1) = none := by
            unfold first_gov_level
            rw [hfg, if_neg hin]
          have hinf : in_set ks (level_cnpj (tree.getD j default) k) = false := by
            simpa using hin
          have hmask : gov_mask ks k (reset_row (tree.getD j default)) = false := by
            unfold gov_mask
            show (true && in_set ks (level_cnpj (tree.getD j default) k) && true) = false
            rw [hinf]
            rfl
          rw [scan_row_of_none ks tree (k + 1) j hfg2, hx]
          simp only [hmask, Bool.false_and, Bool.false_eq_true, if_false]

end Gov

namespace Gov

/-- Helper: the fallback never touches a row with a recorded match. -/
theorem apply_fallback_match_some (r : GovRow)
    (h : r.contribution_match.isNone = false) : apply_fallback r = r := by
  unfold apply_fallback fallback_mask
  rw [h]
  simp

/-- Helper: filling contribution columns keeps the key. -/
theorem fill_contribution_key (r : GovRow) (vl rt : Option ℚ)
    (a t : Option String) :
    (fill_contribution r vl rt a t).KEY_ESTRUTURA_GERENCIAL
      = r.KEY_ESTRUTURA_GERENCIAL := rfl

/-- Helper: filling contribution columns keeps the match. -/
theorem fill_contribution_match (r : GovRow) (vl rt : Option ℚ)
    (a t : Option String) :
    (fill_contribution r vl rt a t).contribution_match
      = r.contribution_match := rfl

/-- Helper: the whole level scan with fallback, at one index. -/
theorem assign_estrutura_getD (tree : List GovRow) (ks : List String)
    (max_deep j : ℕ) (hj : j < tree.length) :
    (assign_estrutura_gerencial_key tree ks max_deep).getD j default
      = apply_fallback (scan_row ks tree (max_deep + 1) j) := by
  unfold assign_estrutura_gerencial_key
  rw [level_fold_char, List.map_map]
  rw [List.getD_eq_getElem _ _ (by simpa using hj)]
  simp

/-- Helper: the level scan preserves the number of rows. -/
theorem assign_estrutura_length (tree : List GovRow) (ks : List String)
    (max_deep : ℕ) :
    (assign_estrutura_gerencial_key tree ks max_deep).length = tree.length := by
  unfold assign_estrutura_gerencial_key
  rw [level_fold_char]
  simp

/-- Helper: the full resolver, at one index. -/
theorem assign_keys_getD (tree : List GovRow) (gs : List GovStructRow)
    (j : ℕ) (hj : j < tree.length) :
    (assign_governance_struct_keys tree gs).getD j default
      = fill_missing_row (key_vehicle_list gs)
          (apply_fallback (scan_row (key_vehicle_list gs) tree
            (gov_max_nivel tree + 1) j)) := by
  unfold assign_governance_struct_keys fill_missing_governance_struct
  have h1 : j < ((assign_estrutura_gerencial_key tree (key_vehicle_list gs)
      (gov_max_nivel tree)).map
        (fill_missing_row (key_vehicle_list gs))).length := by
    rw [List.length_map, assign_estrutura_length]
    exact hj
  rw [List.getD_eq_getElem _ _ h1, List.getElem_map]
  congr 1
  rw [← List.getD_eq_getElem _ default (by
    rw [assign_estrutura_length]
    exact hj)]
  exact assign_estrutura_getD tree (key_vehicle_list gs) (gov_max_nivel tree) j hj

end Gov

namespace Gov

/-- Helper: a governed level id is present (not NaN). -/
theorem level_cnpj_isNone_false_of_in_set (ks : List String) (r : GovRow)
    (i : ℕ) (h : in_set ks (level_cnpj r i) = true) :
    (level_cnpj r i).isNone = false := by
  cases hcn : level_cnpj r i with
  | none => rw [hcn] at h; exact absurd h (by simp [in_set])
  | some v => rfl

/-- Helper: the fallback on a reset row is decided by the level-0
reference alone. -/
theorem apply_fallback_reset (r : GovRow) :
    apply_fallback (reset_row r)
      = (if has_nonempty_cnpjfundo r then
          fill_contribution_default
            { reset_row r with
              contribution_match := some "#OUTROS",
              KEY_ESTRUTURA_GERENCIAL := some "#OUTROS" }
        else reset_row r) := by
  unfold apply_fallback fallback_mask
  cases hh : has_nonempty_cnpjfundo r with
  | true =>
    rw [show has_nonempty_cnpjfundo (reset_row r) = true from hh]
    simp [reset_row]
  | false =>
    rw [show has_nonempty_cnpjfundo (reset_row r) = false from hh]
    simp [reset_row]

/-- C2 (amended): the level scan records, per row, the SHALLOWEST level
whose fund id is in the governance set as the match candidate
(first_gov_level, whose minimality first_gov_level_min states); within
each (codcart, dtposicao, cnpb) group and for the row's matching level
id, only the first row in table order becomes the contribution carrier:
any later row of the same (group, level id) combination gets no key and
keeps contribution_valor_calc 0, while the first matching row receives
the key and the level's value columns.  The same vehicle matched at
DIFFERENT levels by different rows of one group can produce one carrier
per level (see the counterexample), so the claimed uniqueness holds per
(group, matching level id), not per (group, vehicle).  On the chain
Portfolio→FundA(ungoverned)→FundB(governed)→FundC(governed) the key
names FundB, not FundC. -/
theorem c2_governance_key_assignment :
    (∀ (tree : List GovRow) (ks : List String) (max_deep j : ℕ),
        j < tree.length →
        ((assign_estrutura_gerencial_key tree ks max_deep).getD j
            default).contribution_match
          = (match first_gov_level ks (tree.getD j default) (max_deep + 1) with
             | some i => level_cnpj (tree.getD j default) i
             | none =>
               if has_nonempty_cnpjfundo (tree.getD j default) then
                 some "#OUTROS"
               else none))
    ∧ (∀ (tree : List GovRow) (ks : List String) (max_deep j1 j2 i : ℕ),
        j1 < j2 → j2 < tree.length →
        first_gov_level ks (tree.getD j2 default) (max_deep + 1) = some i →
        same_combo (tree.getD j1 default) (tree.getD j2 default) i →
        ((assign_estrutura_gerencial_key tree ks max_deep).getD j2
            default).KEY_ESTRUTURA_GERENCIAL = none
        ∧ ((assign_estrutura_gerencial_key tree ks max_deep).getD j2
            default).contribution_valor_calc = some 0)
    ∧ (∀ (tree : List GovRow) (ks : List String) (max_deep j i : ℕ),
        j < tree.length →
        first_gov_level ks (tree.getD j default) (max_deep + 1) = some i →
        first_in_group tree i j (tree.getD j default) = true →
        ((assign_estrutura_gerencial_key tree ks max_deep).getD j
            default).KEY_ESTRUTURA_GERENCIAL
          = level_cnpj (tree.getD j default) i
        ∧ ((assign_estrutura_gerencial_key tree ks max_deep).getD j
            default).contribution_valor_calc
          = (level_data (tree.getD j default) i).valor_calc)
    ∧ (assign_estrutura_gerencial_key c2_chain_tree ["FB", "FC"] 2).map
        (fun r => (r.KEY_ESTRUTURA_GERENCIAL, r.contribution_match))
      = [(some "FB", some "FB")] := by
  refine ⟨?_, ?_, ?_, ?_⟩
  · intro tree ks max_deep j hj
    rw [assign_estrutura_getD tree ks max_deep j hj]
    cases hfg : first_gov_level ks (tree.getD j default) (max_deep + 1) with
    | some i =>
      have hin := in_set_of_first_gov ks (tree.getD j default)
        (max_deep + 1) i hfg
      have hm := scan_row_match_of_some ks tree (max_deep + 1) j i hfg
      have hnone : (scan_row ks tree (max_deep + 1) j).contribution_match.isNone
          = false := by
        rw [hm]
        exact level_cnpj_isNone_false_of_in_set ks _ i hin
      rw [apply_fallback_match_some _ hnone, hm]
    | none =>
      rw [scan_row_of_none ks tree (max_deep + 1) j hfg, apply_fallback_reset]
      by_cases hh : has_nonempty_cnpjfundo (tree.getD j default) = true
      · rw [if_pos hh, if_pos hh]
        rfl
      · rw [if_neg hh, if_neg hh]
        rfl
  · intro tree ks max_deep j1 j2 i h12 hj2 hfg hsame
    rw [assign_estrutura_getD tree ks max_deep j2 hj2]
    have hj1len : j1 < tree.length := lt_trans h12 hj2
    have hfig : first_in_group tree i j2 (tree.getD j2 default) = false := by
      unfold first_in_group
      apply Bool.eq_false_iff.mpr
      intro hall
      have hj1take : j1 < (tree.take j2).length := by
        rw [List.length_take]
        omega
      have hmem : (tree.take j2).get ⟨j1, hj1take⟩ ∈ tree.take j2 :=
        List.get_mem _ _ _
      have htk := List.all_eq_true.mp hall _ hmem
      rw [List.get_eq_getElem, List.getElem_take] at htk
      rw [List.getD_eq_getElem tree default hj1len] at hsame
      simp only [Bool.not_eq_true', decide_eq_false_iff_not] at htk
      exact htk hsame
    rw [scan_row_of_some ks tree (max_deep + 1) j2 i hfg,
      if_neg (by rw [hfig]; exact Bool.false_ne_true)]
    have hin := in_set_of_first_gov ks (tree.getD j2 default)
      (max_deep + 1) i hfg
    have hnone : ({ reset_row (tree.getD j2 default) with
        contribution_match := level_cnpj (tree.getD j2 default) i }
          : GovRow).contribution_match.isNone = false := by
      show (level_cnpj (tree.getD j2 default) i).isNone = false
      exact level_cnpj_isNone_false_of_in_set ks _ i hin
    rw [apply_fallback_match_some _ hnone]
    exact ⟨rfl, rfl⟩
  · intro tree ks max_deep j i hj hfg hfig
    rw [assign_estrutura_getD tree ks max_deep j hj,
      scan_row_of_some ks tree (max_deep + 1) j i hfg, if_pos hfig]
    have hin := in_set_of_first_gov ks (tree.getD j default)
      (max_deep + 1) i hfg
    have hnone : (fill_contribution
        { reset_row (tree.getD j default) with
          contribution_match := level_cnpj (tree.getD j default) i,
          KEY_ESTRUTURA_GERENCIAL := level_cnpj (tree.getD j default) i }
        (level_data (tree.getD j default) i).valor_calc
        (level_data (tree.getD j default) i).rentab
        (level_data (tree.getD j default) i).nome_ativo
        (level_data (tree.getD j default) i).tipo).contribution_match.isNone
          = false := by
      rw [fill_contribution_match]
      show (level_cnpj (tree.getD j default) i).isNone = false
      exact level_cnpj_isNone_false_of_in_set ks _ i hin
    rw [apply_fallback_match_some _ hnone]
    exact ⟨rfl, rfl⟩
  · decide

end Gov

namespace Gov

/-- Witness for the C2 theorem at the three-row table c2x_tree with
governance set ["V"]: row 0 matches at level 1 and is the carrier, row 2
matches at level 1 but duplicates row 0's (group, level-1 id)
combination and gets no key and zero contribution. -/
theorem c2_witness :
    (0 < c2x_tree.length
      ∧ ((assign_estrutura_gerencial_key c2x_tree ["V"] 2).getD 0
          default).contribution_match
        = (match first_gov_level ["V"] (c2x_tree.getD 0 default) 3 with
           | some i => level_cnpj (c2x_tree.getD 0 default) i
           | none =>
             if has_nonempty_cnpjfundo (c2x_tree.getD 0 default) then
               some "#OUTROS"
             else none))
    ∧ (first_gov_level ["V"] (c2x_tree.getD 2 default) 3 = some 1
      ∧ same_combo (c2x_tree.getD 0 default) (c2x_tree.getD 2 default) 1
      ∧ ((assign_estrutura_gerencial_key c2x_tree ["V"] 2).getD 2
          default).KEY_ESTRUTURA_GERENCIAL = none
      ∧ ((assign_estrutura_gerencial_key c2x_tree ["V"] 2).getD 2
          default).contribution_valor_calc = some 0)
    ∧ (first_gov_level ["V"] (c2x_tree.getD 0 default) 3 = some 1
      ∧ first_in_group c2x_tree 1 0 (c2x_tree.getD 0 default) = true
      ∧ ((assign_estrutura_gerencial_key c2x_tree ["V"] 2).getD 0
          default).KEY_ESTRUTURA_GERENCIAL
        = level_cnpj (c2x_tree.getD 0 default) 1
      ∧ ((assign_estrutura_gerencial_key c2x_tree ["V"] 2).getD 0
          default).contribution_valor_calc
        = (level_data (c2x_tree.getD 0 default) 1).valor_calc) := by
  have H := c2_governance_key_assignment
  refine ⟨⟨by decide, H.1 c2x_tree ["V"] 2 0 (by decide)⟩,
    ⟨by decide, by decide,
      (H.2.1 c2x_tree ["V"] 2 0 2 1 (by decide) (by decide) (by decide)
        (by decide)).1,
      (H.2.1 c2x_tree ["V"] 2 0 2 1 (by decide) (by decide) (by decide)
        (by decide)).2⟩,
    by decide, by decide,
    (H.2.2.1 c2x_tree ["V"] 2 0 1 (by decide) (by decide) (by decide)).1,
    (H.2.2.1 c2x_tree ["V"] 2 0 1 (by decide) (by decide) (by decide)).2⟩

end Gov

namespace Gov

/-- Counterexample to C2 as stated: in one (codcart, dtposicao, cnpb)
group, rows 0 and 1 BOTH carry the key and a non-zero contribution for
the same governance vehicle "V" (matched at levels 1 and 2
respectively), because the duplicated-subset test is keyed on the
level-specific fund-id column, not on the matched vehicle; so exactly
one carrier per (group, vehicle) fails, while row 2 (a true level-1
duplicate of row 0) is correctly zeroed. -/
theorem c2_counterexample :
    (assign_estrutura_gerencial_key c2x_tree ["V"] 2).map
        (fun r => (r.KEY_ESTRUTURA_GERENCIAL, r.contribution_match))
      = [(some "V", some "V"), (some "V", some "V"), (none, some "V")]
    ∧ (assign_estrutura_gerencial_key c2x_tree ["V"] 2).map
        (fun r => r.contribution_valor_calc)
      = [some 100, some 200, some 0]
    ∧ c2x_tree.map (fun r => (r.codcart, r.dtposicao, r.cnpb))
      = [(some "G", "20240131", "P1"), (some "G", "20240131", "P1"),
         (some "G", "20240131", "P1")]
    ∧ (100 : ℚ) ≠ 0 ∧ (200 : ℚ) ≠ 0 := by
  refine ⟨by decide, by decide, by decide, by norm_num, by norm_num⟩

end Gov

namespace Gov

/-- C4 (amended): a row whose level-0 fund reference is null or empty
and whose fund ids match the governance set at no level leaves the level
scan and its fallback with KEY_ESTRUTURA_GERENCIAL still unset, but the
subsequent codcart-based fill (fill_missing_governance_struct, always
run by assign_governance_struct_keys) then assigns it a key anyway:
codcart when codcart is a governance vehicle, and the catch-all
'#OUTROS' otherwise — the key does NOT stay unset in the final table. -/
theorem c4_null_reference_row_still_gets_key :
    ∀ (tree : List GovRow) (gs : List GovStructRow) (j : ℕ),
      j < tree.length →
      first_gov_level (key_vehicle_list gs) (tree.getD j default)
        (gov_max_nivel tree + 1) = none →
      has_nonempty_cnpjfundo (tree.getD j default) = false →
      ((assign_estrutura_gerencial_key tree (key_vehicle_list gs)
          (gov_max_nivel tree)).getD j default).KEY_ESTRUTURA_GERENCIAL
        = none
      ∧ ((assign_governance_struct_keys tree gs).getD j
          default).KEY_ESTRUTURA_GERENCIAL
        = some (match (tree.getD j default).codcart with
                | some s =>
                  if (key_vehicle_list gs).contains s then s else "#OUTROS"
                | none => "#OUTROS") := by
  intro tree gs j hj hfg hne
  have hnoset : ¬ has_nonempty_cnpjfundo (tree.getD j default) = true := by
    rw [hne]; exact Bool.false_ne_true
  have h1 : apply_fallback (scan_row (key_vehicle_list gs) tree
      (gov_max_nivel tree + 1) j) = reset_row (tree.getD j default) := by
    rw [scan_row_of_none _ tree _ j hfg, apply_fallback_reset, if_neg hnoset]
  constructor
  · rw [assign_estrutura_getD tree _ _ j hj, h1]
    rfl
  · rw [assign_keys_getD tree gs j hj, h1]
    simp only [fill_missing_row]
    cases hc : (tree.getD j default).codcart with
    | none =>
      rw [show (reset_row (tree.getD j default)).codcart
        = (none : Option String) from hc]
      rfl
    | some s =>
      rw [show (reset_row (tree.getD j default)).codcart
        = some s from hc]
      cases hk : (key_vehicle_list gs).contains s with
      | true => simp only [hk]; rfl
      | false => simp only [hk]; rfl

end Gov

namespace Gov

/-- Witness for the C4 theorem: the one-row tree whose level-0 fund
reference is null, against a governance structure naming only "V"; the
level scan leaves the key unset, the final table gives it '#OUTROS'. -/
theorem c4_witness :
    (0 < c4_tree.length
      ∧ first_gov_level (key_vehicle_list c4_gs) (c4_tree.getD 0 default)
          (gov_max_nivel c4_tree + 1) = none
      ∧ has_nonempty_cnpjfundo (c4_tree.getD 0 default) = false)
    ∧ ((assign_estrutura_gerencial_key c4_tree (key_vehicle_list c4_gs)
        (gov_max_nivel c4_tree)).getD 0 default).KEY_ESTRUTURA_GERENCIAL
      = none
    ∧ ((assign_governance_struct_keys c4_tree c4_gs).getD 0
        default).KEY_ESTRUTURA_GERENCIAL
      = some (match (c4_tree.getD 0 default).codcart with
              | some s =>
                if (key_vehicle_list c4_gs).contains s then s else "#OUTROS"
              | none => "#OUTROS") :=
  ⟨⟨by decide, by decide, by decide⟩,
    c4_null_reference_row_still_gets_key c4_tree c4_gs 0 (by decide)
      (by decide) (by decide)⟩

/-- Counterexample to C4 as stated: the null-reference row ends with
KEY_ESTRUTURA_GERENCIAL = some '#OUTROS' in the final table, not with an
unset key. -/
theorem c4_counterexample :
    (assign_governance_struct_keys c4_tree c4_gs).map
        (fun r => r.KEY_ESTRUTURA_GERENCIAL) = [some "#OUTROS"]
    ∧ level_cnpj (c4_tree.getD 0 default) 0 = none :=
  ⟨by decide, by decide⟩

end Gov
